import Mathlib

/-!
Verification of the cross-chain atomic-swap settlement engine
(Cosmos atomic-swap / cross-chain-bridge contracts, the Stellar fusion-HTLC
and partial-fill contracts, and the NEAR fusion-plus / fusion-htlc-partial
contracts).

Each contract's entry points are shallowly embedded as pure functions from
an explicit state to `Except err (state × emitted transfers)`.  A returned
error models a reverted transaction (CosmWasm returning `Err`, or a
Soroban/NEAR panic), so an error leaves the persisted state untouched by
construction, exactly as on chain.  Machine integers (`Uint128`, `u64`,
`u128`, `i128`) are modelled as `Nat`/`Int`.  Wherever the source
subtracts without a preceding guard — the `amount - fee` payout
computations of the two Cosmos complete paths, whose `Uint128`
subtraction aborts the transaction on underflow (reachable because
`protocol_fee_bps` is accepted unvalidated) — the embedding models the
abort as an explicit `SubOverflow` error instead of using truncating
`Nat` subtraction; every other subtraction in the sources sits behind an
explicit guard.  The SHA-256 / Keccak-256 digests are external
primitives and are modelled as an abstract function parameter
`hash : String → String`.
-/

/-! ## Association-list storage maps

CosmWasm `Map`, Soroban persistent storage, and NEAR `UnorderedMap` /
`LookupMap` are all key-value stores with overwrite-on-insert semantics.
We model them as association lists with unique keys. -/

def mapGet {κ α : Type} [DecidableEq κ] (m : List (κ × α)) (k : κ) :
    Option α :=
  match m with
  | [] => none
  | (k', v) :: rest => if k' = k then some v else mapGet rest k

def mapSet {κ α : Type} [DecidableEq κ] (m : List (κ × α)) (k : κ) (v : α) :
    List (κ × α) :=
  match m with
  | [] => [(k, v)]
  | (k', v') :: rest =>
      if k' = k then (k, v) :: rest else (k', v') :: mapSet rest k v

def mapRemove {κ α : Type} [DecidableEq κ] (m : List (κ × α)) (k : κ) :
    List (κ × α) :=
  match m with
  | [] => []
  | (k', v') :: rest =>
      if k' = k then mapRemove rest k else (k', v') :: mapRemove rest k

theorem mapGet_mapSet_same {κ α : Type} [DecidableEq κ]
    (m : List (κ × α)) (k : κ) (v : α) :
    mapGet (mapSet m k v) k = some v := by
  induction m with
  | nil => simp [mapGet, mapSet]
  | cons p rest ih =>
      obtain ⟨k', v'⟩ := p
      by_cases h : k' = k
      · subst h; simp [mapGet, mapSet]
      · simpa [mapGet, mapSet, h] using ih

theorem mapGet_mapSet_other {κ α : Type} [DecidableEq κ]
    (m : List (κ × α)) (k k' : κ) (v : α) (hne : k' ≠ k) :
    mapGet (mapSet m k v) k' = mapGet m k' := by
  induction m with
  | nil => simp [mapGet, mapSet, Ne.symm hne]
  | cons p rest ih =>
      obtain ⟨k₀, v₀⟩ := p
      by_cases h : k₀ = k
      · subst h
        simp [mapGet, mapSet, hne, Ne.symm hne]
      · by_cases h' : k₀ = k'
        · subst h'; simp [mapGet, mapSet, h]
        · simpa [mapGet, mapSet, h, h'] using ih

theorem mapGet_mapRemove_same {κ α : Type} [DecidableEq κ]
    (m : List (κ × α)) (k : κ) :
    mapGet (mapRemove m k) k = none := by
  induction m with
  | nil => simp [mapGet, mapRemove]
  | cons p rest ih =>
      obtain ⟨k₀, v₀⟩ := p
      by_cases h : k₀ = k
      · simpa [mapRemove, h] using ih
      · simpa [mapRemove, mapGet, h] using ih

theorem mapGet_mapRemove_other {κ α : Type} [DecidableEq κ]
    (m : List (κ × α)) (k k' : κ) (hne : k' ≠ k) :
    mapGet (mapRemove m k) k' = mapGet m k' := by
  induction m with
  | nil => simp [mapGet, mapRemove]
  | cons p rest ih =>
      obtain ⟨k₀, v₀⟩ := p
      by_cases h : k₀ = k
      · subst h
        simpa [mapRemove, mapGet, Ne.symm hne] using ih
      · by_cases h' : k₀ = k'
        · subst h'; simp [mapRemove, mapGet, h]
        · simpa [mapRemove, mapGet, h, h'] using ih

/-- A CosmWasm `Coin`; the `Uint128` amount is modelled as `Nat`. -/
structure Coin where
  denom : String
  amount : Nat
deriving Repr, DecidableEq

/-- A `BankMsg::Send` with a single coin, as emitted by both Cosmos
contracts. -/
structure BankMsg where
  toAddress : String
  amount : Coin
deriving Repr, DecidableEq

/-! ## Cosmos `atomic_swap` contract

Embedding of `cosmos-integration/contracts/atomic_swap/src/{state,contract}.rs`. -/

namespace AtomicSwap

inductive SwapStatus
  | Active
  | Completed
  | Refunded
deriving Repr, DecidableEq

structure Config where
  owner : String
  protocolFeeBps : Nat
  minTimelockDuration : Nat
  maxTimelockDuration : Nat
deriving Repr, DecidableEq

structure Swap where
  id : String
  initiator : String
  recipient : String
  amount : Coin
  secretHash : String
  timelock : Nat
  status : SwapStatus
  createdAt : Nat
  completedAt : Option Nat
  secret : Option String
deriving Repr, DecidableEq

/-- The contract's `ContractError` variants, plus `SubOverflow`: the
`Uint128` underflow abort raised by the unguarded `amount - fee`
subtraction (a runtime panic that fails the transaction, not a variant of
the source enum). -/
inductive CwError
  | Unauthorized
  | SwapNotFound
  | InvalidSecret
  | InvalidSecretHash
  | SwapAlreadyCompleted
  | SwapAlreadyRefunded
  | TimelockNotExpired
  | TimelockExpired
  | InvalidTimelock
  | InvalidAmount
  | InsufficientFunds
  | SubOverflow
deriving Repr, DecidableEq

structure State where
  config : Config
  swaps : List (String × Swap)
  swapCounter : Nat
deriving Repr, DecidableEq

/-- `execute_complete_swap` (contract.rs lines 150-208).  The Rust function
receives `_info: MessageInfo` and never reads it; we keep the caller
parameter `_info` to mirror the signature.  The `transfer_amount`
computation at line 189 is an unguarded `Uint128` subtraction, so when
`fee_amount > amount` (possible since `protocol_fee_bps` is never
validated against 10000) the source panics and the transaction fails;
that abort is the `SubOverflow` error here. -/
def executeCompleteSwap (hash : String → String) (st : State)
    (blockTime : Nat) (_info : String) (swapId secret : String) :
    Except CwError (State × BankMsg) :=
  match mapGet st.swaps swapId with
  | none => .error .SwapNotFound
  | some swap =>
    match swap.status with
    | .Completed => .error .SwapAlreadyCompleted
    | .Refunded => .error .SwapAlreadyRefunded
    | .Active =>
      if blockTime ≥ swap.timelock then .error .TimelockExpired
      else if hash secret ≠ swap.secretHash then .error .InvalidSecret
      else
        let swap' := { swap with
          status := .Completed
          completedAt := some blockTime
          secret := some secret }
        let st' := { st with swaps := mapSet st.swaps swapId swap' }
        let feeAmount := swap.amount.amount * st.config.protocolFeeBps / 10000
        if swap.amount.amount < feeAmount then .error .SubOverflow
        else
          let transferAmount := swap.amount.amount - feeAmount
          .ok (st', { toAddress := swap.recipient
                      amount := { denom := swap.amount.denom
                                  amount := transferAmount } })

/-- `execute_refund_swap` (contract.rs lines 210-252). -/
def executeRefundSwap (st : State) (blockTime : Nat)
    (sender swapId : String) : Except CwError (State × BankMsg) :=
  match mapGet st.swaps swapId with
  | none => .error .SwapNotFound
  | some swap =>
    if sender ≠ swap.initiator then .error .Unauthorized
    else
      match swap.status with
      | .Completed => .error .SwapAlreadyCompleted
      | .Refunded => .error .SwapAlreadyRefunded
      | .Active =>
        if blockTime < swap.timelock then .error .TimelockNotExpired
        else
          let swap' := { swap with
            status := .Refunded
            completedAt := some blockTime }
          let st' := { st with swaps := mapSet st.swaps swapId swap' }
          .ok (st', { toAddress := swap.initiator, amount := swap.amount })

end AtomicSwap

/-! ## Cosmos `cross_chain_bridge` contract

Embedding of `cosmos-integration/contracts/cross_chain_bridge/src/{state,contract,ibc}.rs`. -/

namespace Bridge

inductive OrderStatus
  | Pending
  | Active
  | Completed
  | Refunded
  | Failed
deriving Repr, DecidableEq

structure Config where
  owner : String
  protocolFeeBps : Nat
  minTimelockDuration : Nat
  maxTimelockDuration : Nat
  ibcTimeoutSeconds : Nat
deriving Repr, DecidableEq

structure ChainConfig where
  chainId : Nat
  chainName : String
  ibcChannel : String
  isActive : Bool
  feeMultiplier : Nat
deriving Repr, DecidableEq

structure BridgeOrder where
  orderId : String
  initiator : String
  sourceChainId : Nat
  targetChainId : Nat
  recipient : String
  amount : Coin
  secretHash : String
  timelock : Nat
  status : OrderStatus
  createdAt : Nat
  completedAt : Option Nat
  secret : Option String
  ibcPacketSequence : Option Nat
deriving Repr, DecidableEq

structure IbcTransfer where
  orderId : String
  packetSequence : Nat
  channelId : String
  sender : String
  receiver : String
  amount : Coin
  timeoutTimestamp : Nat
deriving Repr, DecidableEq

/-- The bridge contract's error cases (`ChainConfigNotFound` standing for
the `StdError` of a failed `CHAIN_CONFIGS.load`), plus `SubOverflow`: the
`Uint128` underflow abort raised by the unguarded
`amount - (base_fee + chain_fee)` subtraction. -/
inductive BridgeError
  | Unauthorized
  | OrderNotFound
  | ChainConfigNotFound
  | ChainNotSupported
  | InvalidSecret
  | InvalidSecretHash
  | OrderAlreadyCompleted
  | OrderAlreadyRefunded
  | TimelockNotExpired
  | TimelockExpired
  | InvalidTimelock
  | InvalidAmount
  | InsufficientFunds
  | SubOverflow
deriving Repr, DecidableEq

structure State where
  config : Config
  chainConfigs : List (Nat × ChainConfig)
  orders : List (String × BridgeOrder)
  orderCounter : Nat
  ibcTransfers : List (Nat × IbcTransfer)
deriving Repr, DecidableEq

/-- The `IbcMsg::Transfer` emitted by `execute_complete_bridge_order`. -/
structure IbcMsgTransfer where
  channelId : String
  toAddress : String
  amount : Coin
  timeoutTimestamp : Nat
deriving Repr, DecidableEq

/-- `execute_complete_bridge_order` (contract.rs lines 188-275).  As in the
source, the caller's `_info` is unused.  The `transfer_amount`
computation at line 231 is an unguarded `Uint128` subtraction, so when
`base_fee + chain_fee > amount` the source panics and the transaction
fails; that abort is the `SubOverflow` error here. -/
def executeCompleteBridgeOrder (hash : String → String) (st : State)
    (blockTime : Nat) (contractAddr : String) (_info : String)
    (orderId secret : String) :
    Except BridgeError (State × IbcMsgTransfer) :=
  match mapGet st.orders orderId with
  | none => .error .OrderNotFound
  | some order =>
    match order.status with
    | .Completed => .error .OrderAlreadyCompleted
    | .Refunded => .error .OrderAlreadyRefunded
    | .Failed => .error .OrderAlreadyRefunded
    | _ =>
      if blockTime ≥ order.timelock then .error .TimelockExpired
      else if hash secret ≠ order.secretHash then .error .InvalidSecret
      else
        let order₁ := { order with
          status := .Active
          secret := some secret }
        let st₁ := { st with orders := mapSet st.orders orderId order₁ }
        match mapGet st.chainConfigs order.targetChainId with
        | none => .error .ChainConfigNotFound
        | some targetChain =>
          let baseFee :=
            order.amount.amount * st.config.protocolFeeBps / 10000
          let chainFee :=
            order.amount.amount * targetChain.feeMultiplier / 10000
          let totalFee := baseFee + chainFee
          if order.amount.amount < totalFee then .error .SubOverflow
          else
            let transferAmount := order.amount.amount - totalFee
            let ibcTimeout := blockTime + st.config.ibcTimeoutSeconds
            let packetSequence := st.orderCounter + 1
            let transfer : IbcTransfer := {
              orderId := orderId
              packetSequence := packetSequence
              channelId := targetChain.ibcChannel
              sender := contractAddr
              receiver := order.recipient
              amount := { denom := order.amount.denom
                          amount := transferAmount }
              timeoutTimestamp := ibcTimeout }
            let order₂ := { order₁ with
              ibcPacketSequence := some packetSequence }
            let st₂ := { st₁ with
              ibcTransfers := mapSet st₁.ibcTransfers packetSequence
                transfer
              orders := mapSet st₁.orders orderId order₂ }
            .ok (st₂, { channelId := targetChain.ibcChannel
                        toAddress := order.recipient
                        amount := { denom := order.amount.denom
                                    amount := transferAmount }
                        timeoutTimestamp := ibcTimeout })

/-- `execute_refund_bridge_order` (contract.rs lines 277-320). -/
def executeRefundBridgeOrder (st : State) (blockTime : Nat)
    (sender orderId : String) : Except BridgeError (State × BankMsg) :=
  match mapGet st.orders orderId with
  | none => .error .OrderNotFound
  | some order =>
    if sender ≠ order.initiator then .error .Unauthorized
    else
      match order.status with
      | .Completed => .error .OrderAlreadyCompleted
      | .Refunded => .error .OrderAlreadyRefunded
      | _ =>
        if blockTime < order.timelock then .error .TimelockNotExpired
        else
          let order' := { order with
            status := .Refunded
            completedAt := some blockTime }
          let st' := { st with orders := mapSet st.orders orderId order' }
          .ok (st', { toAddress := order.initiator, amount := order.amount })

/-- `ibc_packet_ack` (ibc.rs lines 84-111).  The handler never fails; the
acknowledgement payload is its `success` flag. -/
def ibcPacketAck (st : State) (sequence : Nat) (ackSuccess : Bool) : State :=
  match mapGet st.ibcTransfers sequence with
  | none => st
  | some transfer =>
    let st₁ :=
      match mapGet st.orders transfer.orderId with
      | none => st
      | some order =>
        let order' := { order with
          status := if ackSuccess then .Completed else .Failed }
        { st with orders := mapSet st.orders transfer.orderId order' }
    { st₁ with ibcTransfers := mapRemove st₁.ibcTransfers sequence }

/-- `ibc_packet_timeout` (ibc.rs lines 113-134). -/
def ibcPacketTimeout (st : State) (sequence : Nat) : State :=
  match mapGet st.ibcTransfers sequence with
  | none => st
  | some transfer =>
    let st₁ :=
      match mapGet st.orders transfer.orderId with
      | none => st
      | some order =>
        let order' := { order with status := OrderStatus.Failed }
        { st with orders := mapSet st.orders transfer.orderId order' }
    { st₁ with ibcTransfers := mapRemove st₁.ibcTransfers sequence }

end Bridge

/-! ## Stellar `fusion-htlc` contract

Embedding of `stellar-integration/contracts/fusion-htlc/src/lib.rs`.
Soroban `assert!` panics abort the whole invocation, so the entry points
return `Except String`, the error being the panic message.  `BytesN<32>`
values (hashlock, secret) are modelled as `String`, and the external
Keccak-256 primitive as an abstract function `keccak : String → String`.
`i128` amounts are `Int`, with `Int.tdiv` for the truncating division. -/

namespace StellarFusion

inductive HTLCStatus
  | Pending
  | Finalized
  | TakerSettlement
  | PrivateSettlement
  | PublicSettlement
  | PrivateCancellation
  | PublicCancellation
  | Completed
  | Cancelled
deriving Repr, DecidableEq

structure FusionHTLC where
  id : Nat
  sender : String
  receiver : String
  token : String
  amount : Int
  hashlock : String
  secret : Option String
  status : HTLCStatus
  finalityTime : Nat
  takerDeadline : Nat
  publicDeadline : Nat
  cancellationStart : Nat
  cancellationPublic : Nat
  allowedResolvers : List String
  takerAddress : String
  resolverFeeBps : Nat
  withdrawnBy : Option String
  cancelledBy : Option String
deriving Repr, DecidableEq

structure ResolverConfig where
  address : String
  priority : Nat
  feeDiscountBps : Nat
  enabled : Bool
deriving Repr, DecidableEq

/-- A Soroban token transfer out of the contract. -/
structure TokenTransfer where
  src : String
  dst : String
  amount : Int
deriving Repr, DecidableEq

/-- `update_htlc_status` (lib.rs lines 187-207): recompute the stage from
the current time; terminal states short-circuit. -/
def updateHtlcStatus (currentTime : Nat) (htlc : FusionHTLC) : FusionHTLC :=
  if htlc.status = .Completed ∨ htlc.status = .Cancelled then htlc
  else if currentTime < htlc.finalityTime then
    { htlc with status := .Pending }
  else if currentTime < htlc.takerDeadline then
    { htlc with status := .TakerSettlement }
  else if currentTime < htlc.publicDeadline then
    { htlc with status := .PrivateSettlement }
  else if currentTime < htlc.cancellationStart then
    { htlc with status := .PublicSettlement }
  else if currentTime < htlc.cancellationPublic then
    { htlc with status := .PrivateCancellation }
  else
    { htlc with status := .PublicCancellation }

/-- `is_global_resolver` (lib.rs lines 369-376). -/
def isGlobalResolver (configs : List (String × ResolverConfig))
    (address : String) : Bool :=
  match mapGet configs address with
  | some config => config.enabled
  | none => false

/-- The stage-based permission table inside `withdraw`
(lib.rs lines 232-243), evaluated on the refreshed status. -/
def canWithdrawAt (configs : List (String × ResolverConfig))
    (htlc : FusionHTLC) (withdrawer : String) : Bool :=
  match htlc.status with
  | .Pending => false
  | .TakerSettlement => withdrawer = htlc.takerAddress
  | .PrivateSettlement =>
      withdrawer = htlc.takerAddress ∨
      htlc.allowedResolvers.contains withdrawer ∨
      isGlobalResolver configs withdrawer
  | .PublicSettlement => true
  | .PrivateCancellation => false
  | .PublicCancellation => false
  | _ => false

/-- `withdraw` (lib.rs lines 210-288). -/
def withdraw (keccak : String → String)
    (configs : List (String × ResolverConfig)) (currentTime : Nat)
    (contractAddr : String) (htlcs : List (Nat × FusionHTLC))
    (htlcId : Nat) (withdrawer secret : String) :
    Except String (List (Nat × FusionHTLC) × List TokenTransfer) :=
  match mapGet htlcs htlcId with
  | none => .error "HTLC not found"
  | some htlc₀ =>
    let htlc := updateHtlcStatus currentTime htlc₀
    if htlc.status = .Completed then .error "Already withdrawn"
    else if htlc.status = .Cancelled then .error "Already cancelled"
    else if keccak secret ≠ htlc.hashlock then .error "Invalid secret"
    else if ¬ canWithdrawAt configs htlc withdrawer then
      .error "Not authorized to withdraw at this stage"
    else
      let resolverFee : Int :=
        if withdrawer ≠ htlc.receiver then
          Int.tdiv (htlc.amount * (htlc.resolverFeeBps : Int)) 10000
        else 0
      let receiverAmount := htlc.amount - resolverFee
      let transfers :=
        ⟨contractAddr, htlc.receiver, receiverAmount⟩ ::
          (if resolverFee > 0 then
            [⟨contractAddr, withdrawer, resolverFee⟩] else [])
      let htlc' := { htlc with
        status := .Completed
        secret := some secret
        withdrawnBy := some withdrawer }
      .ok (mapSet htlcs htlcId htlc', transfers)

/-- `cancel` (lib.rs lines 291-339). -/
def cancel (configs : List (String × ResolverConfig)) (currentTime : Nat)
    (contractAddr : String) (htlcs : List (Nat × FusionHTLC))
    (htlcId : Nat) (canceller : String) :
    Except String (List (Nat × FusionHTLC) × List TokenTransfer) :=
  match mapGet htlcs htlcId with
  | none => .error "HTLC not found"
  | some htlc₀ =>
    let htlc := updateHtlcStatus currentTime htlc₀
    if htlc.status = .Completed then .error "Already withdrawn"
    else if htlc.status = .Cancelled then .error "Already cancelled"
    else
      let canCancel : Bool :=
        match htlc.status with
        | .PrivateCancellation =>
            canceller = htlc.sender ∨
            htlc.allowedResolvers.contains canceller ∨
            isGlobalResolver configs canceller
        | .PublicCancellation => true
        | _ => false
      if ¬ canCancel then .error "Not authorized to cancel at this stage"
      else
        let htlc' := { htlc with
          status := .Cancelled
          cancelledBy := some canceller }
        .ok (mapSet htlcs htlcId htlc',
          [⟨contractAddr, htlc.sender, htlc.amount⟩])

end StellarFusion

/-! ## NEAR `fusion_plus` contract

Embedding of `near-integration/src/fusion_plus.rs`.  NEAR `require!` /
`expect` panics abort the call, so entry points return `Except String`
with the panic message.  `U128` amounts are `Nat`; block timestamps are
already divided down to seconds in the source, so times are plain `Nat`
seconds.  `verify_secret` hex-decodes the secret and SHA-256-hashes the
bytes; the whole pipeline is the abstract `hash` parameter.  The
safety-deposit store is independent of the operations embedded here and
is omitted. -/

namespace FusionPlus

def MIN_TIMELOCK : Nat := 3600
def MAX_TIMELOCK : Nat := 2592000

inductive HTLCStatus
  | Active
  | Completed
  | Refunded
  | PartiallyFilled
deriving Repr, DecidableEq

inductive FillStatus
  | Pending
  | Completed
  | Refunded
deriving Repr, DecidableEq

structure FusionHTLC where
  id : String
  sender : String
  receiver : String
  tokenId : Option String
  totalAmount : Nat
  remainingAmount : Nat
  hashlock : String
  timelock : Nat
  secret : Option String
  allowPartialFills : Bool
  minFillAmount : Nat
  safetyDepositAmount : Nat
  status : HTLCStatus
  createdAt : Nat
deriving Repr, DecidableEq

structure PartialFill where
  id : String
  htlcId : String
  filler : String
  amount : Nat
  status : FillStatus
  createdAt : Nat
deriving Repr, DecidableEq

/-- A NEAR `Promise::new(dst).transfer(amount)`. -/
structure Transfer where
  dst : String
  amount : Nat
deriving Repr, DecidableEq

structure State where
  htlcs : List (String × FusionHTLC)
  partialFills : List (String × List PartialFill)
  secretToHtlc : List (String × String)
  userHtlcs : List (String × List String)
  activeHtlcs : List String
  nextHtlcId : Nat
  nextFillId : Nat
  totalVolume : Nat
  totalHtlcsCreated : Nat
deriving Repr, DecidableEq

def addUserHtlc (m : List (String × List String)) (user htlcId : String) :
    List (String × List String) :=
  mapSet m user ((mapGet m user).getD [] ++ [htlcId])

/-- `remove_from_active` (fusion_plus.rs lines 554-563): the source rebuilds
the vector keeping every id different from the removed one. -/
def removeFromActive (l : List String) (htlcId : String) : List String :=
  l.filter (fun i => i ≠ htlcId)

/-- `create_htlc` (fusion_plus.rs lines 155-233). -/
def createHtlc (st : State) (sender : String) (deposit : Nat)
    (currentTime : Nat) (receiver hashlock : String)
    (timelockSeconds : Nat) (allowPartialFills : Bool)
    (minFillAmount : Option Nat) (requireSafetyDeposit : Bool) :
    Except String (State × String) :=
  if ¬ deposit > 0 then .error "Amount must be greater than 0"
  else if hashlock.length ≠ 64 then .error "Invalid hashlock"
  else if ¬ (MIN_TIMELOCK ≤ timelockSeconds ∧
             timelockSeconds ≤ MAX_TIMELOCK) then .error "Invalid timelock"
  else
    let minFillChecked : Except String Nat :=
      if allowPartialFills then
        let m := minFillAmount.getD (deposit / 10)
        if m > 0 ∧ m ≤ deposit then .ok m
        else .error "Invalid min fill amount"
      else .ok deposit
    match minFillChecked with
    | .error e => .error e
    | .ok minFill =>
      let htlcId := "htlc_" ++ toString st.nextHtlcId
      let htlc : FusionHTLC := {
        id := htlcId
        sender := sender
        receiver := receiver
        tokenId := none
        totalAmount := deposit
        remainingAmount := deposit
        hashlock := hashlock
        timelock := currentTime + timelockSeconds
        secret := none
        allowPartialFills := allowPartialFills
        minFillAmount := minFill
        safetyDepositAmount := if requireSafetyDeposit then deposit / 20 else 0
        status := .Active
        createdAt := currentTime }
      let st' : State := {
        htlcs := mapSet st.htlcs htlcId htlc
        partialFills :=
          if allowPartialFills then mapSet st.partialFills htlcId []
          else st.partialFills
        secretToHtlc := mapSet st.secretToHtlc hashlock htlcId
        userHtlcs := addUserHtlc (addUserHtlc st.userHtlcs sender htlcId)
          receiver htlcId
        activeHtlcs := st.activeHtlcs ++ [htlcId]
        nextHtlcId := st.nextHtlcId + 1
        nextFillId := st.nextFillId
        totalVolume := st.totalVolume + deposit
        totalHtlcsCreated := st.totalHtlcsCreated + 1 }
      .ok (st', htlcId)

/-- `withdraw` (fusion_plus.rs lines 236-268). -/
def withdraw (hash : String → String) (st : State) (currentTime : Nat)
    (withdrawer : String) (htlcId secret : String) :
    Except String (State × Transfer) :=
  match mapGet st.htlcs htlcId with
  | none => .error "HTLC not found"
  | some htlc =>
    if ¬ (htlc.status = .Active ∨ htlc.status = .PartiallyFilled) then
      .error "HTLC not active"
    else if ¬ currentTime < htlc.timelock then .error "HTLC expired"
    else if withdrawer ≠ htlc.receiver then .error "Not the receiver"
    else if htlc.allowPartialFills then
      .error "Use withdraw_partial for partial fills"
    else if hash secret ≠ htlc.hashlock then .error "Invalid secret"
    else
      let htlc' := { htlc with
        status := HTLCStatus.Completed
        secret := some secret }
      let st' := { st with
        htlcs := mapSet st.htlcs htlcId htlc'
        activeHtlcs := removeFromActive st.activeHtlcs htlcId }
      .ok (st', ⟨withdrawer, htlc.totalAmount⟩)

/-- `create_partial_fill` (fusion_plus.rs lines 272-324).  The refund of any
excess attached deposit does not touch contract state and is not part of
the returned value. -/
def createPartialFill (st : State) (filler : String) (attached : Nat)
    (currentTime : Nat) (htlcId : String) (fillAmount : Nat) :
    Except String (State × String) :=
  match mapGet st.htlcs htlcId with
  | none => .error "HTLC not found"
  | some htlc =>
    if ¬ htlc.allowPartialFills then .error "Partial fills not allowed"
    else if ¬ (htlc.status = .Active ∨ htlc.status = .PartiallyFilled) then
      .error "HTLC not active"
    else if ¬ currentTime < htlc.timelock then .error "HTLC expired"
    else if ¬ fillAmount ≥ htlc.minFillAmount then .error "Below minimum fill"
    else if ¬ fillAmount ≤ htlc.remainingAmount then
      .error "Exceeds remaining amount"
    else if ¬ attached ≥ fillAmount then .error "Insufficient deposit"
    else
      let fillId := "fill_" ++ toString st.nextFillId
      let fill : PartialFill := {
        id := fillId
        htlcId := htlcId
        filler := filler
        amount := fillAmount
        status := .Pending
        createdAt := currentTime }
      let fills := (mapGet st.partialFills htlcId).getD [] ++ [fill]
      let htlc' := { htlc with
        remainingAmount := htlc.remainingAmount - fillAmount
        status := HTLCStatus.PartiallyFilled }
      .ok ({ st with
        nextFillId := st.nextFillId + 1
        partialFills := mapSet st.partialFills htlcId fills
        htlcs := mapSet st.htlcs htlcId htlc' }, fillId)

/-- The first fill with the given id, as found by the index loops in
`withdraw_partial` / `refund_partial_fill`. -/
def findFill (fills : List PartialFill) (fillId : String) :
    Option PartialFill :=
  match fills with
  | [] => none
  | f :: rest => if f.id = fillId then some f else findFill rest fillId

/-- `fills.replace(idx, ...)` at the index found by the loop: replace the
first fill whose id matches. -/
def replaceFill (fills : List PartialFill) (fillId : String)
    (f' : PartialFill) : List PartialFill :=
  match fills with
  | [] => []
  | f :: rest =>
      if f.id = fillId then f' :: rest else f :: replaceFill rest fillId f'

/-- `withdraw_partial` (fusion_plus.rs lines 327-368).  The
`all_fills_completed` check runs after the fill update has been stored,
so it reads the updated list. -/
def withdrawPartialFill (hash : String → String) (st : State)
    (currentTime : Nat) (withdrawer : String)
    (htlcId fillId secret : String) : Except String (State × Transfer) :=
  match mapGet st.htlcs htlcId with
  | none => .error "HTLC not found"
  | some htlc =>
    if withdrawer ≠ htlc.receiver then .error "Not the receiver"
    else if ¬ currentTime < htlc.timelock then .error "HTLC expired"
    else if hash secret ≠ htlc.hashlock then .error "Invalid secret"
    else
      match mapGet st.partialFills htlcId with
      | none => .error "No fills found"
      | some fills =>
        match findFill fills fillId with
        | none => .error "Fill not found"
        | some fill =>
          if fill.status ≠ .Pending then .error "Fill already processed"
          else
            let fill' := { fill with status := FillStatus.Completed }
            let fills' := replaceFill fills fillId fill'
            let st₁ := { st with
              partialFills := mapSet st.partialFills htlcId fills' }
            let st₂ :=
              if htlc.remainingAmount = 0 ∧
                 fills'.all (fun f => decide (f.status = .Completed)) then
                let htlc' := { htlc with
                  status := HTLCStatus.Completed
                  secret := some secret }
                { st₁ with
                  htlcs := mapSet st₁.htlcs htlcId htlc'
                  activeHtlcs := removeFromActive st₁.activeHtlcs htlcId }
              else st₁
            .ok (st₂, ⟨withdrawer, fill.amount⟩)

/-- `refund` (fusion_plus.rs lines 371-395). -/
def refund (st : State) (currentTime : Nat) (refunder : String)
    (htlcId : String) : Except String (State × Transfer) :=
  match mapGet st.htlcs htlcId with
  | none => .error "HTLC not found"
  | some htlc =>
    if refunder ≠ htlc.sender then .error "Not the sender"
    else if ¬ currentTime ≥ htlc.timelock then .error "Not expired"
    else if htlc.status = .Completed ∨ htlc.status = .Refunded then
      .error "Already processed"
    else
      let refundAmount :=
        if htlc.allowPartialFills then htlc.remainingAmount
        else htlc.totalAmount
      let htlc' := { htlc with status := HTLCStatus.Refunded }
      let st' := { st with
        htlcs := mapSet st.htlcs htlcId htlc'
        activeHtlcs := removeFromActive st.activeHtlcs htlcId }
      .ok (st', ⟨refunder, refundAmount⟩)

/-- `refund_partial_fill` (fusion_plus.rs lines 398-435).  The loop checks
`Pending` status and the caller on the first id match; the HTLC's own
status is never consulted, and `remaining_amount` is restored
unconditionally. -/
def refundPartialFill (st : State) (currentTime : Nat) (caller : String)
    (htlcId fillId : String) : Except String (State × Transfer) :=
  match mapGet st.htlcs htlcId with
  | none => .error "HTLC not found"
  | some htlc =>
    if ¬ currentTime ≥ htlc.timelock then .error "Not expired"
    else
      match mapGet st.partialFills htlcId with
      | none => .error "No fills found"
      | some fills =>
        match findFill fills fillId with
        | none => .error "Fill not found"
        | some fill =>
          if fill.status ≠ .Pending then .error "Fill already processed"
          else if caller ≠ fill.filler then .error "Not the filler"
          else
            let fill' := { fill with status := FillStatus.Refunded }
            let fills' := replaceFill fills fillId fill'
            let htlc' := { htlc with
              remainingAmount := htlc.remainingAmount + fill.amount }
            .ok ({ st with
              partialFills := mapSet st.partialFills htlcId fills'
              htlcs := mapSet st.htlcs htlcId htlc' },
              ⟨fill.filler, fill.amount⟩)

/-- `get_htlc_by_hashlock` (fusion_plus.rs lines 479-482). -/
def getHtlcByHashlock (st : State) (hashlock : String) :
    Option FusionHTLC :=
  match mapGet st.secretToHtlc hashlock with
  | none => none
  | some htlcId => mapGet st.htlcs htlcId

end FusionPlus

/-! ## NEAR `fusion_htlc_partial` contract (refund path)

Embedding of `near-integration/src/fusion_htlc_partial.rs`.  In this
variant fills live in a single `fill_id -> PartialFill` map and carry a
`claimed` flag; `refund_partial_fill` removes the fill record outright. -/

namespace HtlcPartial

structure PartialFill where
  fillId : String
  htlcId : String
  filler : String
  amount : Nat
  secretHash : String
  secret : Option String
  claimed : Bool
  createdAt : Nat
deriving Repr, DecidableEq

structure HTLCPartial where
  id : String
  sender : String
  receiver : String
  tokenId : Option String
  totalAmount : Nat
  remainingAmount : Nat
  minFillAmount : Nat
  hashlock : String
  timelock : Nat
  allowPartialFills : Bool
  fills : List String
  withdrawn : Bool
  refunded : Bool
  createdAt : Nat
deriving Repr, DecidableEq

structure Transfer where
  dst : String
  amount : Nat
deriving Repr, DecidableEq

structure State where
  htlcs : List (String × HTLCPartial)
  partialFills : List (String × PartialFill)
  nextHtlcId : Nat
  nextFillId : Nat
deriving Repr, DecidableEq

/-- `refund_partial_fill` (fusion_htlc_partial.rs lines 327-352): the fill
record is removed from the map and its id filtered out of the HTLC's fill
list; `remaining_amount` is restored with no check of `withdrawn` /
`refunded`. -/
def refundPartialFill (st : State) (currentTime : Nat) (refunder : String)
    (fillId : String) : Except String (State × Transfer) :=
  match mapGet st.partialFills fillId with
  | none => .error "Fill not found"
  | some fill =>
    match mapGet st.htlcs fill.htlcId with
    | none => .error "HTLC not found"
    | some htlc =>
      if fill.claimed then .error "Fill already claimed"
      else if ¬ currentTime ≥ htlc.timelock then .error "HTLC not expired"
      else if refunder ≠ fill.filler then .error "Not the filler"
      else
        let htlc' := { htlc with
          remainingAmount := htlc.remainingAmount + fill.amount
          fills := htlc.fills.filter (fun fid => fid ≠ fillId) }
        .ok ({ st with
          partialFills := mapRemove st.partialFills fillId
          htlcs := mapSet st.htlcs fill.htlcId htlc' },
          ⟨refunder, fill.amount⟩)

end HtlcPartial

/-! ## Stellar `partial-fill-htlc` contract (fill path)

Embedding of `stellar-integration/contracts/partial-fill-htlc/src/lib.rs`. -/

namespace StellarPartialFill

structure Fill where
  filler : String
  amount : Int
  timestamp : Nat
  secret : Option String
deriving Repr, DecidableEq

structure PartialHTLC where
  id : Nat
  sender : String
  receiver : String
  token : String
  totalAmount : Int
  filledAmount : Int
  minFillAmount : Int
  hashlock : String
  timelock : Nat
  allowPartialWithdraw : Bool
  completed : Bool
  refunded : Bool
  fills : List Fill
deriving Repr, DecidableEq

/-- `fill_htlc` (lib.rs lines 124-190).  `resolver_deposits` is the
`ResolverDeposits(addr)` storage. -/
def fillHtlc (keccak : String → String) (deposits : List (String × Int))
    (currentTime : Nat) (contractAddr : String)
    (htlcs : List (Nat × PartialHTLC)) (htlcId : Nat)
    (filler : String) (amount : Int) (secret : String) :
    Except String (List (Nat × PartialHTLC) × StellarFusion.TokenTransfer) :=
  match mapGet htlcs htlcId with
  | none => .error "HTLC not found"
  | some htlc =>
    if htlc.completed ∨ htlc.refunded then .error "HTLC already closed"
    else if ¬ currentTime < htlc.timelock then .error "Timelock expired"
    else if ¬ amount ≥ htlc.minFillAmount then
      .error "Amount below minimum fill"
    else if ¬ htlc.filledAmount + amount ≤ htlc.totalAmount then
      .error "Exceeds total amount"
    else if keccak secret ≠ htlc.hashlock then .error "Invalid secret"
    else
      let requiredDeposit := Int.tdiv (amount * htlc.totalAmount) htlc.totalAmount
      let currentDeposit := (mapGet deposits filler).getD 0
      if ¬ currentDeposit ≥ requiredDeposit then .error "Insufficient deposit"
      else
        let fill : Fill := {
          filler := filler
          amount := amount
          timestamp := currentTime
          secret := some secret }
        let htlc₁ := { htlc with
          fills := htlc.fills ++ [fill]
          filledAmount := htlc.filledAmount + amount }
        let htlc₂ :=
          if htlc₁.filledAmount = htlc₁.totalAmount then
            { htlc₁ with completed := true }
          else htlc₁
        .ok (mapSet htlcs htlcId htlc₂, ⟨contractAddr, filler, amount⟩)

end StellarPartialFill

/-! ## Claims -/

/-- C2: for a non-terminal order with strictly increasing stage boundaries,
`update_htlc_status` maps the current time `t` to: `Pending` on
`[0, finality_time)`, `TakerSettlement` on `[finality_time, taker_deadline)`,
`PrivateSettlement` on `[taker_deadline, public_deadline)`,
`PublicSettlement` on `[public_deadline, cancellation_start)`,
`PrivateCancellation` on `[cancellation_start, cancellation_public)` and
`PublicCancellation` on `[cancellation_public, ∞)`; every boundary is exact,
and a terminal (`Completed`/`Cancelled`) order is left entirely unchanged. -/
theorem stage_function_exact_boundaries (h : StellarFusion.FusionHTLC)
    (t : Nat)
    (hmono : h.finalityTime < h.takerDeadline ∧
             h.takerDeadline < h.publicDeadline ∧
             h.publicDeadline < h.cancellationStart ∧
             h.cancellationStart < h.cancellationPublic)
    (hterm : h.status ≠ .Completed ∧ h.status ≠ .Cancelled) :
    (t < h.finalityTime →
      (StellarFusion.updateHtlcStatus t h).status = .Pending) ∧
    (h.finalityTime ≤ t → t < h.takerDeadline →
      (StellarFusion.updateHtlcStatus t h).status = .TakerSettlement) ∧
    (h.takerDeadline ≤ t → t < h.publicDeadline →
      (StellarFusion.updateHtlcStatus t h).status = .PrivateSettlement) ∧
    (h.publicDeadline ≤ t → t < h.cancellationStart →
      (StellarFusion.updateHtlcStatus t h).status = .PublicSettlement) ∧
    (h.cancellationStart ≤ t → t < h.cancellationPublic →
      (StellarFusion.updateHtlcStatus t h).status = .PrivateCancellation) ∧
    (h.cancellationPublic ≤ t →
      (StellarFusion.updateHtlcStatus t h).status = .PublicCancellation) ∧
    (∀ h' : StellarFusion.FusionHTLC,
      h'.status = .Completed ∨ h'.status = .Cancelled →
      StellarFusion.updateHtlcStatus t h' = h') := by
  obtain ⟨hm1, hm2, hm3, hm4⟩ := hmono
  have hnt : ¬ (h.status = StellarFusion.HTLCStatus.Completed ∨
      h.status = StellarFusion.HTLCStatus.Cancelled) := by
    rintro (hc | hc)
    · exact hterm.1 hc
    · exact hterm.2 hc
  refine ⟨?_, ?_, ?_, ?_, ?_, ?_, ?_⟩
  · intro ht
    simp [StellarFusion.updateHtlcStatus, hnt, ht]
  · intro h1 h2
    simp [StellarFusion.updateHtlcStatus, hnt, Nat.not_lt.mpr h1, h2]
  · intro h1 h2
    have : ¬ t < h.finalityTime := Nat.not_lt.mpr (le_trans hm1.le h1)
    simp [StellarFusion.updateHtlcStatus, hnt, this, Nat.not_lt.mpr h1, h2]
  · intro h1 h2
    have hfa : ¬ t < h.finalityTime :=
      Nat.not_lt.mpr (le_trans (hm1.le.trans hm2.le) h1)
    have htk : ¬ t < h.takerDeadline := Nat.not_lt.mpr (le_trans hm2.le h1)
    simp [StellarFusion.updateHtlcStatus, hnt, hfa, htk, Nat.not_lt.mpr h1, h2]
  · intro h1 h2
    have hfa : ¬ t < h.finalityTime :=
      Nat.not_lt.mpr (le_trans ((hm1.le.trans hm2.le).trans hm3.le) h1)
    have htk : ¬ t < h.takerDeadline :=
      Nat.not_lt.mpr (le_trans (hm2.le.trans hm3.le) h1)
    have hpb : ¬ t < h.publicDeadline := Nat.not_lt.mpr (le_trans hm3.le h1)
    simp [StellarFusion.updateHtlcStatus, hnt, hfa, htk, hpb,
      Nat.not_lt.mpr h1, h2]
  · intro h1
    have hfa : ¬ t < h.finalityTime :=
      Nat.not_lt.mpr
        (le_trans (((hm1.le.trans hm2.le).trans hm3.le).trans hm4.le) h1)
    have htk : ¬ t < h.takerDeadline :=
      Nat.not_lt.mpr (le_trans ((hm2.le.trans hm3.le).trans hm4.le) h1)
    have hpb : ¬ t < h.publicDeadline :=
      Nat.not_lt.mpr (le_trans (hm3.le.trans hm4.le) h1)
    have hcs : ¬ t < h.cancellationStart :=
      Nat.not_lt.mpr (le_trans hm4.le h1)
    simp [StellarFusion.updateHtlcStatus, hnt, hfa, htk, hpb, hcs,
      Nat.not_lt.mpr h1]
  · intro h' hstat
    simp [StellarFusion.updateHtlcStatus, hstat]

def c2Htlc : StellarFusion.FusionHTLC := {
  id := 1
  sender := "alice"
  receiver := "bob"
  token := "tok"
  amount := 100
  hashlock := "hl"
  secret := none
  status := .Pending
  finalityTime := 10
  takerDeadline := 20
  publicDeadline := 30
  cancellationStart := 40
  cancellationPublic := 50
  allowedResolvers := []
  takerAddress := "taker"
  resolverFeeBps := 0
  withdrawnBy := none
  cancelledBy := none }

/-- Witness for C2 at boundaries 10 < 20 < 30 < 40 < 50 and time 25. -/
theorem stage_function_exact_boundaries_witness :
    (c2Htlc.finalityTime < c2Htlc.takerDeadline ∧
     c2Htlc.takerDeadline < c2Htlc.publicDeadline ∧
     c2Htlc.publicDeadline < c2Htlc.cancellationStart ∧
     c2Htlc.cancellationStart < c2Htlc.cancellationPublic) ∧
    (c2Htlc.status ≠ .Completed ∧ c2Htlc.status ≠ .Cancelled) ∧
    ((25 < c2Htlc.finalityTime →
       (StellarFusion.updateHtlcStatus 25 c2Htlc).status = .Pending) ∧
     (c2Htlc.finalityTime ≤ 25 → 25 < c2Htlc.takerDeadline →
       (StellarFusion.updateHtlcStatus 25 c2Htlc).status = .TakerSettlement) ∧
     (c2Htlc.takerDeadline ≤ 25 → 25 < c2Htlc.publicDeadline →
       (StellarFusion.updateHtlcStatus 25 c2Htlc).status = .PrivateSettlement) ∧
     (c2Htlc.publicDeadline ≤ 25 → 25 < c2Htlc.cancellationStart →
       (StellarFusion.updateHtlcStatus 25 c2Htlc).status = .PublicSettlement) ∧
     (c2Htlc.cancellationStart ≤ 25 → 25 < c2Htlc.cancellationPublic →
       (StellarFusion.updateHtlcStatus 25 c2Htlc).status = .PrivateCancellation) ∧
     (c2Htlc.cancellationPublic ≤ 25 →
       (StellarFusion.updateHtlcStatus 25 c2Htlc).status = .PublicCancellation) ∧
     (∀ h' : StellarFusion.FusionHTLC,
       h'.status = .Completed ∨ h'.status = .Cancelled →
       StellarFusion.updateHtlcStatus 25 h' = h')) :=
  ⟨by decide, by decide,
    stage_function_exact_boundaries c2Htlc 25 (by decide) (by decide)⟩

/-- C10: `execute_complete_swap` never reads the caller's identity — two
invocations with the same swap id, secret and starting state give
identical results — and on success the payout transfer is addressed to
the swap's stored recipient. -/
theorem complete_swap_caller_independent :
    (∀ (hash : String → String) (st : AtomicSwap.State) (t : Nat)
       (infoA infoB swapId secret : String),
       AtomicSwap.executeCompleteSwap hash st t infoA swapId secret =
       AtomicSwap.executeCompleteSwap hash st t infoB swapId secret) ∧
    (∀ (hash : String → String) (st : AtomicSwap.State) (t : Nat)
       (info swapId secret : String) (st' : AtomicSwap.State)
       (msg : BankMsg) (swap : AtomicSwap.Swap),
       mapGet st.swaps swapId = some swap →
       AtomicSwap.executeCompleteSwap hash st t info swapId secret =
         .ok (st', msg) →
       msg.toAddress = swap.recipient) := by
  constructor
  · intro hash st t iA iB swapId secret
    rfl
  · intro hash st t info swapId secret st' msg swap hget hok
    simp only [AtomicSwap.executeCompleteSwap, hget] at hok
    cases hst : swap.status with
    | Completed => simp only [hst] at hok; cases hok
    | Refunded => simp only [hst] at hok; cases hok
    | Active =>
        simp only [hst] at hok
        by_cases ht : t ≥ swap.timelock
        · simp [ht] at hok
        · by_cases hsec : hash secret ≠ swap.secretHash
          · simp [ht, hsec] at hok
          · by_cases hfee : swap.amount.amount <
                swap.amount.amount * st.config.protocolFeeBps / 10000
            · simp [ht, hsec, hfee] at hok
            · simp [ht, hsec, hfee] at hok
              obtain ⟨-, hmsg⟩ := hok
              rw [← hmsg]

def idHash : String → String := fun s => s

def c10Swap : AtomicSwap.Swap := {
  id := "swap_0"
  initiator := "alice"
  recipient := "bob"
  amount := ⟨"uatom", 10000⟩
  secretHash := "s3cr3t"
  timelock := 100
  status := .Active
  createdAt := 0
  completedAt := none
  secret := none }

def c10State : AtomicSwap.State :=
  ⟨⟨"owner", 50, 1, 100000⟩, [("swap_0", c10Swap)], 1⟩

def c10Result :=
  AtomicSwap.executeCompleteSwap idHash c10State 5 "carol" "swap_0" "s3cr3t"

def c10NewState : AtomicSwap.State :=
  match c10Result with
  | .ok (st, _) => st
  | .error _ => c10State

def c10Msg : BankMsg :=
  match c10Result with
  | .ok (_, m) => m
  | .error _ => ⟨"", ⟨"", 0⟩⟩

/-- Witness for C10: a concrete completed swap where the payout goes to
the stored recipient, with two distinct callers giving the same result. -/
theorem complete_swap_caller_independent_witness :
    (AtomicSwap.executeCompleteSwap idHash c10State 5 "carol" "swap_0"
       "s3cr3t" =
     AtomicSwap.executeCompleteSwap idHash c10State 5 "dave" "swap_0"
       "s3cr3t") ∧
    (mapGet c10State.swaps "swap_0" = some c10Swap ∧
     AtomicSwap.executeCompleteSwap idHash c10State 5 "carol" "swap_0"
       "s3cr3t" = .ok (c10NewState, c10Msg) ∧
     c10Msg.toAddress = c10Swap.recipient) :=
  ⟨complete_swap_caller_independent.1 idHash c10State 5 "carol" "dave"
     "swap_0" "s3cr3t",
   by decide,
   by rfl,
   complete_swap_caller_independent.2 idHash c10State 5 "carol" "swap_0"
     "s3cr3t" c10NewState c10Msg c10Swap (by decide) (by rfl)⟩

def c5Swap : AtomicSwap.Swap := {
  id := "swap_0"
  initiator := "alice"
  recipient := "bob"
  amount := ⟨"uatom", 10000⟩
  secretHash := "s3cr3t"
  timelock := 100
  status := .Active
  createdAt := 0
  completedAt := none
  secret := none }

def c5State : AtomicSwap.State :=
  ⟨⟨"owner", 50, 1, 100000⟩, [("swap_0", c5Swap)], 1⟩

def c5Fee : Nat :=
  c5Swap.amount.amount * c5State.config.protocolFeeBps / 10000

def c5Payout : Nat :=
  match AtomicSwap.executeCompleteSwap idHash c5State 5 "carol" "swap_0"
      "s3cr3t" with
  | .ok (_, m) => m.amount.amount
  | .error _ => 0

/-- C5: on a successful withdrawal the payout is computed by truncating
integer arithmetic: `resolver_fee = amount * protocol_fee_bps / 10000`
and `payout = amount - resolver_fee` in the atomic-swap contract; the
bridge adds a chain-specific `amount * fee_multiplier / 10000` term to the
base fee before subtracting.  With `protocol_fee_bps = 50` and
`amount = 10000` the payout is `9950` and the fee `50`. -/
theorem fee_and_payout_formula :
    (∀ (hash : String → String) (st : AtomicSwap.State) (t : Nat)
       (info swapId secret : String) (st' : AtomicSwap.State)
       (msg : BankMsg) (swap : AtomicSwap.Swap),
       mapGet st.swaps swapId = some swap →
       AtomicSwap.executeCompleteSwap hash st t info swapId secret =
         .ok (st', msg) →
       msg.amount.amount =
         swap.amount.amount -
           swap.amount.amount * st.config.protocolFeeBps / 10000) ∧
    (∀ (hash : String → String) (st : Bridge.State) (t : Nat)
       (addr info orderId secret : String) (st' : Bridge.State)
       (msg : Bridge.IbcMsgTransfer) (order : Bridge.BridgeOrder)
       (chain : Bridge.ChainConfig),
       mapGet st.orders orderId = some order →
       mapGet st.chainConfigs order.targetChainId = some chain →
       Bridge.executeCompleteBridgeOrder hash st t addr info orderId
         secret = .ok (st', msg) →
       msg.amount.amount =
         order.amount.amount -
           (order.amount.amount * st.config.protocolFeeBps / 10000 +
            order.amount.amount * chain.feeMultiplier / 10000)) ∧
    (c5Payout = 9950 ∧ c5Fee = 50) := by
  refine ⟨?_, ?_, by decide, by decide⟩
  · intro hash st t info swapId secret st' msg swap hget hok
    simp only [AtomicSwap.executeCompleteSwap, hget] at hok
    cases hst : swap.status with
    | Completed => simp only [hst] at hok; cases hok
    | Refunded => simp only [hst] at hok; cases hok
    | Active =>
        simp only [hst] at hok
        by_cases ht : t ≥ swap.timelock
        · simp [ht] at hok
        · by_cases hsec : hash secret ≠ swap.secretHash
          · simp [ht, hsec] at hok
          · by_cases hfee : swap.amount.amount <
                swap.amount.amount * st.config.protocolFeeBps / 10000
            · simp [ht, hsec, hfee] at hok
            · simp [ht, hsec, hfee] at hok
              obtain ⟨-, hmsg⟩ := hok
              rw [← hmsg]
  · intro hash st t addr info orderId secret st' msg order chain hget
      hchain hok
    simp only [Bridge.executeCompleteBridgeOrder, hget] at hok
    cases hst : order.status with
    | Completed => simp only [hst] at hok; cases hok
    | Refunded => simp only [hst] at hok; cases hok
    | Failed => simp only [hst] at hok; cases hok
    | Pending =>
        simp only [hst] at hok
        by_cases ht : t ≥ order.timelock
        · simp [ht] at hok
        · by_cases hsec : hash secret ≠ order.secretHash
          · simp [ht, hsec] at hok
          · simp only [ht, hsec, if_false, ite_not, hchain] at hok
            by_cases hfee : order.amount.amount <
                order.amount.amount * st.config.protocolFeeBps / 10000 +
                  order.amount.amount * chain.feeMultiplier / 10000
            · simp [hfee] at hok
            · simp [hfee] at hok
              obtain ⟨-, hmsg⟩ := hok
              rw [← hmsg]
    | Active =>
        simp only [hst] at hok
        by_cases ht : t ≥ order.timelock
        · simp [ht] at hok
        · by_cases hsec : hash secret ≠ order.secretHash
          · simp [ht, hsec] at hok
          · simp only [ht, hsec, if_false, ite_not, hchain] at hok
            by_cases hfee : order.amount.amount <
                order.amount.amount * st.config.protocolFeeBps / 10000 +
                  order.amount.amount * chain.feeMultiplier / 10000
            · simp [hfee] at hok
            · simp [hfee] at hok
              obtain ⟨-, hmsg⟩ := hok
              rw [← hmsg]

theorem updateHtlcStatus_hashlock (t : Nat)
    (h : StellarFusion.FusionHTLC) :
    (StellarFusion.updateHtlcStatus t h).hashlock = h.hashlock := by
  simp only [StellarFusion.updateHtlcStatus]
  split_ifs <;> rfl

/-- C1 (amended): a withdrawal succeeds iff the configured hash of the
presented secret equals the stored hashlock.  In the Cosmos atomic swap,
whenever the hash differs the call returns an error (hence,
transactionally, no state change and no transfer), and for an `Active`,
unexpired swap whose configured fee does not exceed the amount
(`protocol_fee_bps ≤ 10000` — otherwise the unguarded `Uint128` payout
subtraction aborts the call even with a matching secret) the call
succeeds exactly when the hash matches.  In the Stellar fusion-HTLC
`withdraw`, a wrong secret always produces an error, and for a
non-terminal order whose refreshed stage authorizes the caller the call
succeeds exactly when the Keccak hash matches — verification runs before
any state mutation or transfer. -/
theorem withdraw_succeeds_iff_secret_matches :
    (∀ (hash : String → String) (st : AtomicSwap.State) (t : Nat)
       (info swapId secret : String) (swap : AtomicSwap.Swap),
       mapGet st.swaps swapId = some swap →
       (hash secret ≠ swap.secretHash →
         ∃ e, AtomicSwap.executeCompleteSwap hash st t info swapId secret =
           .error e) ∧
       (swap.status = .Active → t < swap.timelock →
        st.config.protocolFeeBps ≤ 10000 →
         ((∃ out,
            AtomicSwap.executeCompleteSwap hash st t info swapId secret =
              .ok out) ↔
          hash secret = swap.secretHash))) ∧
    (∀ (keccak : String → String)
       (configs : List (String × StellarFusion.ResolverConfig)) (t : Nat)
       (addr : String) (htlcs : List (Nat × StellarFusion.FusionHTLC))
       (htlcId : Nat) (withdrawer secret : String)
       (htlc : StellarFusion.FusionHTLC),
       mapGet htlcs htlcId = some htlc →
       (keccak secret ≠ htlc.hashlock →
         ∃ e, StellarFusion.withdraw keccak configs t addr htlcs htlcId
           withdrawer secret = .error e) ∧
       ((StellarFusion.updateHtlcStatus t htlc).status ≠ .Completed →
        (StellarFusion.updateHtlcStatus t htlc).status ≠ .Cancelled →
        StellarFusion.canWithdrawAt configs
          (StellarFusion.updateHtlcStatus t htlc) withdrawer = true →
         ((∃ out, StellarFusion.withdraw keccak configs t addr htlcs htlcId
             withdrawer secret = .ok out) ↔
          keccak secret = htlc.hashlock))) := by
  constructor
  · intro hash st t info swapId secret swap hget
    constructor
    · intro hsec
      simp only [AtomicSwap.executeCompleteSwap, hget]
      cases hst : swap.status with
      | Completed => exact ⟨_, rfl⟩
      | Refunded => exact ⟨_, rfl⟩
      | Active =>
          by_cases ht : t ≥ swap.timelock
          · exact ⟨.TimelockExpired, by simp [ht]⟩
          · exact ⟨.InvalidSecret, by simp [ht, hsec]⟩
    · intro hst ht' hbps
      have hfee : swap.amount.amount * st.config.protocolFeeBps / 10000 ≤
          swap.amount.amount := by
        calc swap.amount.amount * st.config.protocolFeeBps / 10000
            ≤ swap.amount.amount * 10000 / 10000 :=
              Nat.div_le_div_right (Nat.mul_le_mul_left _ hbps)
          _ = swap.amount.amount := Nat.mul_div_cancel _ (by omega)
      constructor
      · rintro ⟨out, hok⟩
        by_cases hsec : hash secret = swap.secretHash
        · exact hsec
        · exfalso
          simp only [AtomicSwap.executeCompleteSwap, hget] at hok
          simp [hst, Nat.not_le.mpr ht', hsec] at hok
      · intro hsec
        cases he : AtomicSwap.executeCompleteSwap hash st t info swapId
            secret with
        | ok out => exact ⟨out, rfl⟩
        | error e =>
            exfalso
            simp only [AtomicSwap.executeCompleteSwap, hget] at he
            simp [hst, Nat.not_le.mpr ht', hsec,
              Nat.not_lt.mpr hfee] at he
  · intro keccak configs t addr htlcs htlcId withdrawer secret htlc hget
    constructor
    · intro hsec
      by_cases h1 : (StellarFusion.updateHtlcStatus t htlc).status =
          StellarFusion.HTLCStatus.Completed
      · exact ⟨"Already withdrawn",
          by simp [StellarFusion.withdraw, hget, h1]⟩
      · by_cases h2 : (StellarFusion.updateHtlcStatus t htlc).status =
            StellarFusion.HTLCStatus.Cancelled
        · exact ⟨"Already cancelled",
            by simp [StellarFusion.withdraw, hget, h1, h2]⟩
        · refine ⟨"Invalid secret", ?_⟩
          have hsec' : keccak secret ≠
              (StellarFusion.updateHtlcStatus t htlc).hashlock := by
            rw [updateHtlcStatus_hashlock]; exact hsec
          simp [StellarFusion.withdraw, hget, h1, h2, hsec']
    · intro h1 h2 hcan
      constructor
      · rintro ⟨out, hok⟩
        by_cases hsec : keccak secret = htlc.hashlock
        · exact hsec
        · exfalso
          have hsec' : keccak secret ≠
              (StellarFusion.updateHtlcStatus t htlc).hashlock := by
            rw [updateHtlcStatus_hashlock]; exact hsec
          simp [StellarFusion.withdraw, hget, h1, h2, hsec'] at hok
      · intro hsec
        cases he : StellarFusion.withdraw keccak configs t addr htlcs
            htlcId withdrawer secret with
        | ok out => exact ⟨out, rfl⟩
        | error e =>
            exfalso
            have hsec' : keccak secret =
                (StellarFusion.updateHtlcStatus t htlc).hashlock := by
              rw [updateHtlcStatus_hashlock]; exact hsec
            simp [StellarFusion.withdraw, hget, h1, h2, hsec', hcan] at he

def c1BadSwap : AtomicSwap.Swap := {
  id := "swap_0"
  initiator := "alice"
  recipient := "bob"
  amount := ⟨"uatom", 10000⟩
  secretHash := "s3cr3t"
  timelock := 100
  status := .Active
  createdAt := 0
  completedAt := none
  secret := none }

def c1BadState : AtomicSwap.State :=
  ⟨⟨"owner", 20000, 1, 100000⟩, [("swap_0", c1BadSwap)], 1⟩

/-- Counterexample to C1 as stated: with `protocol_fee_bps = 20000`
(accepted unvalidated by instantiate and `execute_update_config`) the fee
`10000 * 20000 / 10000 = 20000` exceeds the amount, so the unguarded
`Uint128` payout subtraction aborts the call — the swap is `Active` and
unexpired and the presented secret's hash matches the hashlock, yet
`execute_complete_swap` fails instead of succeeding. -/
theorem withdraw_secret_match_counterexample :
    idHash "s3cr3t" = c1BadSwap.secretHash ∧
    c1BadSwap.status = .Active ∧
    (5 : Nat) < c1BadSwap.timelock ∧
    AtomicSwap.executeCompleteSwap idHash c1BadState 5 "carol" "swap_0"
      "s3cr3t" = .error .SubOverflow :=
  ⟨rfl, rfl, by decide, rfl⟩

def c1Swap : AtomicSwap.Swap := {
  id := "swap_0"
  initiator := "alice"
  recipient := "bob"
  amount := ⟨"uatom", 500⟩
  secretHash := "s3cr3t"
  timelock := 100
  status := .Active
  createdAt := 0
  completedAt := none
  secret := none }

def c1State : AtomicSwap.State :=
  ⟨⟨"owner", 50, 1, 100000⟩, [("swap_0", c1Swap)], 1⟩

def c1Htlc : StellarFusion.FusionHTLC := {
  id := 1
  sender := "alice"
  receiver := "bob"
  token := "tok"
  amount := 100
  hashlock := "hl"
  secret := none
  status := .Pending
  finalityTime := 10
  takerDeadline := 20
  publicDeadline := 30
  cancellationStart := 40
  cancellationPublic := 50
  allowedResolvers := []
  takerAddress := "taker"
  resolverFeeBps := 0
  withdrawnBy := none
  cancelledBy := none }

def c1Htlcs : List (Nat × StellarFusion.FusionHTLC) := [(1, c1Htlc)]

/-- Witness for the amended C1: the concrete swap `swap_0` (fee 50 bps,
within bounds) and the concrete HTLC `1` at time 35 (public-settlement
stage, any caller authorized). -/
theorem withdraw_succeeds_iff_secret_matches_witness :
    (mapGet c1State.swaps "swap_0" = some c1Swap ∧
     ((idHash "s3cr3t" ≠ c1Swap.secretHash →
        ∃ e, AtomicSwap.executeCompleteSwap idHash c1State 5 "carol"
          "swap_0" "s3cr3t" = .error e) ∧
      (c1Swap.status = .Active → 5 < c1Swap.timelock →
       c1State.config.protocolFeeBps ≤ 10000 →
        ((∃ out, AtomicSwap.executeCompleteSwap idHash c1State 5 "carol"
            "swap_0" "s3cr3t" = .ok out) ↔
         idHash "s3cr3t" = c1Swap.secretHash)))) ∧
    (mapGet c1Htlcs 1 = some c1Htlc ∧
     ((idHash "hl" ≠ c1Htlc.hashlock →
        ∃ e, StellarFusion.withdraw idHash [] 35 "contract" c1Htlcs 1
          "anyone" "hl" = .error e) ∧
      ((StellarFusion.updateHtlcStatus 35 c1Htlc).status ≠ .Completed →
       (StellarFusion.updateHtlcStatus 35 c1Htlc).status ≠ .Cancelled →
       StellarFusion.canWithdrawAt []
         (StellarFusion.updateHtlcStatus 35 c1Htlc) "anyone" = true →
        ((∃ out, StellarFusion.withdraw idHash [] 35 "contract" c1Htlcs 1
            "anyone" "hl" = .ok out) ↔
         idHash "hl" = c1Htlc.hashlock)))) :=
  ⟨⟨by decide,
    withdraw_succeeds_iff_secret_matches.1 idHash c1State 5 "carol"
      "swap_0" "s3cr3t" c1Swap (by decide)⟩,
   ⟨by decide,
    withdraw_succeeds_iff_secret_matches.2 idHash [] 35 "contract"
      c1Htlcs 1 "anyone" "hl" c1Htlc (by decide)⟩⟩

def c5Result :=
  AtomicSwap.executeCompleteSwap idHash c5State 5 "carol" "swap_0" "s3cr3t"

def c5NewState : AtomicSwap.State :=
  match c5Result with
  | .ok (st, _) => st
  | .error _ => c5State

def c5Msg : BankMsg :=
  match c5Result with
  | .ok (_, m) => m
  | .error _ => ⟨"", ⟨"", 0⟩⟩

def c5Chain : Bridge.ChainConfig := ⟨2, "ethereum", "channel-0", true, 25⟩

def c5Order : Bridge.BridgeOrder := {
  orderId := "bridge_order_0"
  initiator := "alice"
  sourceChainId := 1
  targetChainId := 2
  recipient := "bob"
  amount := ⟨"uatom", 10000⟩
  secretHash := "s3cr3t"
  timelock := 100
  status := .Pending
  createdAt := 0
  completedAt := none
  secret := none
  ibcPacketSequence := none }

def c5BState : Bridge.State :=
  ⟨⟨"owner", 50, 1, 100000, 600⟩, [(2, c5Chain)],
   [("bridge_order_0", c5Order)], 1, []⟩

def c5BResult :=
  Bridge.executeCompleteBridgeOrder idHash c5BState 5 "contract" "carol"
    "bridge_order_0" "s3cr3t"

def c5BNewState : Bridge.State :=
  match c5BResult with
  | .ok (st, _) => st
  | .error _ => c5BState

def c5BMsg : Bridge.IbcMsgTransfer :=
  match c5BResult with
  | .ok (_, m) => m
  | .error _ => ⟨"", "", ⟨"", 0⟩, 0⟩

/-- Witness for C5: the atomic swap pays `10000 - 10000*50/10000 = 9950`,
and the bridge order pays `10000 - (50 + 25) = 9925` with fee multiplier
25 on top of the 50 bps base fee. -/
theorem fee_and_payout_formula_witness :
    (mapGet c5State.swaps "swap_0" = some c5Swap ∧
     AtomicSwap.executeCompleteSwap idHash c5State 5 "carol" "swap_0"
       "s3cr3t" = .ok (c5NewState, c5Msg) ∧
     c5Msg.amount.amount =
       c5Swap.amount.amount -
         c5Swap.amount.amount * c5State.config.protocolFeeBps / 10000) ∧
    (mapGet c5BState.orders "bridge_order_0" = some c5Order ∧
     mapGet c5BState.chainConfigs c5Order.targetChainId = some c5Chain ∧
     Bridge.executeCompleteBridgeOrder idHash c5BState 5 "contract"
       "carol" "bridge_order_0" "s3cr3t" = .ok (c5BNewState, c5BMsg) ∧
     c5BMsg.amount.amount =
       c5Order.amount.amount -
         (c5Order.amount.amount * c5BState.config.protocolFeeBps / 10000 +
          c5Order.amount.amount * c5Chain.feeMultiplier / 10000)) ∧
    (c5Payout = 9950 ∧ c5Fee = 50) :=
  ⟨⟨by decide, by rfl,
    fee_and_payout_formula.1 idHash c5State 5 "carol" "swap_0" "s3cr3t"
      c5NewState c5Msg c5Swap (by decide) (by rfl)⟩,
   ⟨by decide, by decide, by rfl,
    fee_and_payout_formula.2.1 idHash c5BState 5 "contract" "carol"
      "bridge_order_0" "s3cr3t" c5BNewState c5BMsg c5Order c5Chain
      (by decide) (by decide) (by rfl)⟩,
   fee_and_payout_formula.2.2⟩

/-- C4: cancel/refund is guarded, not idempotent-silent.  In the Cosmos
atomic swap, a successful refund emits exactly one transfer of the full
escrowed coin to the initiator and marks the swap `Refunded`; any second
refund call on the now-refunded swap errors (`SwapAlreadyRefunded` for the
initiator, an error for every caller) and, being an error, emits nothing.
In the NEAR fusion-plus contract a successful `refund` marks the order
`Refunded` and a second call errors (`Already processed` once expired; an
error at any time). -/
theorem cancel_second_call_fails :
    (∀ (st : AtomicSwap.State) (t : Nat) (caller swapId : String)
       (st' : AtomicSwap.State) (msg : BankMsg) (swap : AtomicSwap.Swap),
       mapGet st.swaps swapId = some swap →
       AtomicSwap.executeRefundSwap st t caller swapId = .ok (st', msg) →
       msg = ⟨swap.initiator, swap.amount⟩ ∧
       mapGet st'.swaps swapId =
         some { swap with status := .Refunded, completedAt := some t } ∧
       (∀ t₂, AtomicSwap.executeRefundSwap st' t₂ caller swapId =
         .error .SwapAlreadyRefunded) ∧
       (∀ t₂ c₂, ∃ e,
         AtomicSwap.executeRefundSwap st' t₂ c₂ swapId = .error e)) ∧
    (∀ (st : FusionPlus.State) (t : Nat) (caller htlcId : String)
       (st' : FusionPlus.State) (tr : FusionPlus.Transfer)
       (htlc : FusionPlus.FusionHTLC),
       mapGet st.htlcs htlcId = some htlc →
       FusionPlus.refund st t caller htlcId = .ok (st', tr) →
       tr = ⟨htlc.sender,
         if htlc.allowPartialFills then htlc.remainingAmount
         else htlc.totalAmount⟩ ∧
       mapGet st'.htlcs htlcId =
         some { htlc with status := .Refunded } ∧
       (∀ t₂, t₂ ≥ htlc.timelock →
         FusionPlus.refund st' t₂ caller htlcId =
           .error "Already processed") ∧
       (∀ t₂ c₂, ∃ e, FusionPlus.refund st' t₂ c₂ htlcId = .error e)) := by
  constructor
  · intro st t caller swapId st' msg swap hget hok
    simp only [AtomicSwap.executeRefundSwap, hget] at hok
    by_cases hc : caller ≠ swap.initiator
    · simp [hc] at hok
    · push_neg at hc
      cases hst : swap.status with
      | Completed => simp [hc, hst] at hok
      | Refunded => simp [hc, hst] at hok
      | Active =>
          by_cases ht : t < swap.timelock
          · simp [hc, hst, ht] at hok
          · simp [hc, hst, ht] at hok
            obtain ⟨hst', hmsg⟩ := hok
            have hget' : mapGet st'.swaps swapId =
                some { swap with status := .Refunded, completedAt := some t } := by
              rw [← hst']
              exact mapGet_mapSet_same st.swaps swapId _
            refine ⟨hmsg.symm, hget', ?_, ?_⟩
            · intro t₂
              simp [AtomicSwap.executeRefundSwap, hget', hc]
            · intro t₂ c₂
              by_cases hc₂ : c₂ = swap.initiator
              · exact ⟨.SwapAlreadyRefunded,
                  by simp [AtomicSwap.executeRefundSwap, hget', hc₂]⟩
              · exact ⟨.Unauthorized,
                  by simp [AtomicSwap.executeRefundSwap, hget', hc₂]⟩
  · intro st t caller htlcId st' tr htlc hget hok
    simp only [FusionPlus.refund, hget] at hok
    by_cases hc : caller ≠ htlc.sender
    · simp [hc] at hok
    · push_neg at hc
      by_cases ht : t ≥ htlc.timelock
      · by_cases hterm : htlc.status = .Completed ∨ htlc.status = .Refunded
        · simp [hc, ht, hterm] at hok
        · simp [hc, ht, hterm] at hok
          obtain ⟨hst', htr⟩ := hok
          have hget' : mapGet st'.htlcs htlcId =
              some { htlc with status := FusionPlus.HTLCStatus.Refunded } := by
            rw [← hst']
            exact mapGet_mapSet_same st.htlcs htlcId _
          refine ⟨htr.symm, hget', ?_, ?_⟩
          · intro t₂ ht₂
            simp [FusionPlus.refund, hget', hc, ht₂]
          · intro t₂ c₂
            by_cases hc₂ : c₂ = htlc.sender
            · by_cases ht₂ : t₂ ≥ htlc.timelock
              · exact ⟨"Already processed",
                  by simp [FusionPlus.refund, hget', hc₂, ht₂]⟩
              · exact ⟨"Not expired",
                  by simp [FusionPlus.refund, hget', hc₂, ht₂]⟩
            · exact ⟨"Not the sender",
                by simp [FusionPlus.refund, hget', hc₂]⟩
      · simp [hc, ht] at hok

def c4Swap : AtomicSwap.Swap := {
  id := "swap_0"
  initiator := "alice"
  recipient := "bob"
  amount := ⟨"uatom", 700⟩
  secretHash := "s3cr3t"
  timelock := 100
  status := .Active
  createdAt := 0
  completedAt := none
  secret := none }

def c4State : AtomicSwap.State :=
  ⟨⟨"owner", 50, 1, 100000⟩, [("swap_0", c4Swap)], 1⟩

def c4Result := AtomicSwap.executeRefundSwap c4State 150 "alice" "swap_0"

def c4NewState : AtomicSwap.State :=
  match c4Result with
  | .ok (st, _) => st
  | .error _ => c4State

def c4Msg : BankMsg :=
  match c4Result with
  | .ok (_, m) => m
  | .error _ => ⟨"", ⟨"", 0⟩⟩

def c4Htlc : FusionPlus.FusionHTLC := {
  id := "htlc_1"
  sender := "alice"
  receiver := "bob"
  tokenId := none
  totalAmount := 1000
  remainingAmount := 1000
  hashlock := "hl"
  timelock := 100
  secret := none
  allowPartialFills := false
  minFillAmount := 1000
  safetyDepositAmount := 0
  status := .Active
  createdAt := 0 }

def c4NearState : FusionPlus.State :=
  ⟨[("htlc_1", c4Htlc)], [], [("hl", "htlc_1")], [], ["htlc_1"], 2, 1,
   1000, 1⟩

def c4NearResult := FusionPlus.refund c4NearState 150 "alice" "htlc_1"

def c4NearNewState : FusionPlus.State :=
  match c4NearResult with
  | .ok (st, _) => st
  | .error _ => c4NearState

def c4NearTr : FusionPlus.Transfer :=
  match c4NearResult with
  | .ok (_, tr) => tr
  | .error _ => ⟨"", 0⟩

/-- Witness for C4: a refund of `swap_0` at time 150 (timelock 100)
succeeds once; the second call fails, on both the Cosmos and NEAR
variants. -/
theorem cancel_second_call_fails_witness :
    (mapGet c4State.swaps "swap_0" = some c4Swap ∧
     AtomicSwap.executeRefundSwap c4State 150 "alice" "swap_0" =
       .ok (c4NewState, c4Msg) ∧
     (c4Msg = ⟨c4Swap.initiator, c4Swap.amount⟩ ∧
      mapGet c4NewState.swaps "swap_0" =
        some { c4Swap with status := .Refunded, completedAt := some 150 } ∧
      (∀ t₂, AtomicSwap.executeRefundSwap c4NewState t₂ "alice" "swap_0" =
        .error .SwapAlreadyRefunded) ∧
      (∀ t₂ c₂, ∃ e,
        AtomicSwap.executeRefundSwap c4NewState t₂ c₂ "swap_0" =
          .error e))) ∧
    (mapGet c4NearState.htlcs "htlc_1" = some c4Htlc ∧
     FusionPlus.refund c4NearState 150 "alice" "htlc_1" =
       .ok (c4NearNewState, c4NearTr) ∧
     (c4NearTr = ⟨c4Htlc.sender,
        if c4Htlc.allowPartialFills then c4Htlc.remainingAmount
        else c4Htlc.totalAmount⟩ ∧
      mapGet c4NearNewState.htlcs "htlc_1" =
        some { c4Htlc with status := .Refunded } ∧
      (∀ t₂, t₂ ≥ c4Htlc.timelock →
        FusionPlus.refund c4NearNewState t₂ "alice" "htlc_1" =
          .error "Already processed") ∧
      (∀ t₂ c₂, ∃ e,
        FusionPlus.refund c4NearNewState t₂ c₂ "htlc_1" = .error e))) :=
  ⟨⟨by decide, by rfl,
    cancel_second_call_fails.1 c4State 150 "alice" "swap_0" c4NewState
      c4Msg c4Swap (by decide) (by rfl)⟩,
   ⟨by decide, by rfl,
    cancel_second_call_fails.2 c4NearState 150 "alice" "htlc_1"
      c4NearNewState c4NearTr c4Htlc (by decide) (by rfl)⟩⟩

theorem updateHtlcStatus_takerAddress (t : Nat)
    (h : StellarFusion.FusionHTLC) :
    (StellarFusion.updateHtlcStatus t h).takerAddress = h.takerAddress := by
  simp only [StellarFusion.updateHtlcStatus]
  split_ifs <;> rfl

theorem updateHtlcStatus_allowedResolvers (t : Nat)
    (h : StellarFusion.FusionHTLC) :
    (StellarFusion.updateHtlcStatus t h).allowedResolvers =
      h.allowedResolvers := by
  simp only [StellarFusion.updateHtlcStatus]
  split_ifs <;> rfl

/-- C3: withdrawal authorization follows the current stage exactly —
`Pending`: nobody; `TakerSettlement`: only the designated taker;
`PrivateSettlement`: the taker, a whitelisted resolver, or an enabled
global resolver; `PublicSettlement`: anyone; both cancellation stages:
nobody.  A caller outside these sets gets the authorization error (so, the
transaction reverting, the order is unchanged), and the same caller with a
valid secret succeeds once the refreshed stage is `PublicSettlement`. -/
theorem withdraw_stage_authorization :
    (∀ (configs : List (String × StellarFusion.ResolverConfig))
       (htlc : StellarFusion.FusionHTLC) (w : String),
       (htlc.status = .Pending →
         StellarFusion.canWithdrawAt configs htlc w = false) ∧
       (htlc.status = .TakerSettlement →
         (StellarFusion.canWithdrawAt configs htlc w = true ↔
          w = htlc.takerAddress)) ∧
       (htlc.status = .PrivateSettlement →
         (StellarFusion.canWithdrawAt configs htlc w = true ↔
          (w = htlc.takerAddress ∨
           htlc.allowedResolvers.contains w = true ∨
           StellarFusion.isGlobalResolver configs w = true))) ∧
       (htlc.status = .PublicSettlement →
         StellarFusion.canWithdrawAt configs htlc w = true) ∧
       (htlc.status = .PrivateCancellation ∨
        htlc.status = .PublicCancellation →
         StellarFusion.canWithdrawAt configs htlc w = false)) ∧
    (∀ (keccak : String → String)
       (configs : List (String × StellarFusion.ResolverConfig)) (t : Nat)
       (addr : String) (htlcs : List (Nat × StellarFusion.FusionHTLC))
       (htlcId : Nat) (w secret : String)
       (htlc : StellarFusion.FusionHTLC),
       mapGet htlcs htlcId = some htlc →
       (StellarFusion.updateHtlcStatus t htlc).status =
         .PrivateSettlement →
       w ≠ htlc.takerAddress →
       htlc.allowedResolvers.contains w = false →
       StellarFusion.isGlobalResolver configs w = false →
       StellarFusion.withdraw keccak configs t addr htlcs htlcId w
         secret = .error "Not authorized to withdraw at this stage" ∨
       StellarFusion.withdraw keccak configs t addr htlcs htlcId w
         secret = .error "Invalid secret") ∧
    (∀ (keccak : String → String)
       (configs : List (String × StellarFusion.ResolverConfig)) (t : Nat)
       (addr : String) (htlcs : List (Nat × StellarFusion.FusionHTLC))
       (htlcId : Nat) (w secret : String)
       (htlc : StellarFusion.FusionHTLC),
       mapGet htlcs htlcId = some htlc →
       (StellarFusion.updateHtlcStatus t htlc).status =
         .PublicSettlement →
       keccak secret = htlc.hashlock →
       ∃ out, StellarFusion.withdraw keccak configs t addr htlcs htlcId w
         secret = .ok out) := by
  refine ⟨?_, ?_, ?_⟩
  · intro configs htlc w
    refine ⟨?_, ?_, ?_, ?_, ?_⟩
    · intro hs; simp [StellarFusion.canWithdrawAt, hs]
    · intro hs; simp [StellarFusion.canWithdrawAt, hs]
    · intro hs; simp [StellarFusion.canWithdrawAt, hs]
    · intro hs; simp [StellarFusion.canWithdrawAt, hs]
    · rintro (hs | hs) <;> simp [StellarFusion.canWithdrawAt, hs]
  · intro keccak configs t addr htlcs htlcId w secret htlc hget hstage
      hw hres hglob
    have h1 : (StellarFusion.updateHtlcStatus t htlc).status ≠
        StellarFusion.HTLCStatus.Completed := by simp [hstage]
    have h2 : (StellarFusion.updateHtlcStatus t htlc).status ≠
        StellarFusion.HTLCStatus.Cancelled := by simp [hstage]
    have hres' : w ∉ htlc.allowedResolvers := by
      simpa using hres
    have hcan : StellarFusion.canWithdrawAt configs
        (StellarFusion.updateHtlcStatus t htlc) w = false := by
      simp [StellarFusion.canWithdrawAt, hstage,
        updateHtlcStatus_takerAddress, updateHtlcStatus_allowedResolvers,
        hw, hres', hglob]
    by_cases hsec : keccak secret =
        (StellarFusion.updateHtlcStatus t htlc).hashlock
    · left
      simp [StellarFusion.withdraw, hget, h1, h2, hsec, hcan]
    · right
      simp [StellarFusion.withdraw, hget, h1, h2, hsec]
  · intro keccak configs t addr htlcs htlcId w secret htlc hget hstage
      hsec
    have h1 : (StellarFusion.updateHtlcStatus t htlc).status ≠
        StellarFusion.HTLCStatus.Completed := by simp [hstage]
    have h2 : (StellarFusion.updateHtlcStatus t htlc).status ≠
        StellarFusion.HTLCStatus.Cancelled := by simp [hstage]
    have hsec' : keccak secret =
        (StellarFusion.updateHtlcStatus t htlc).hashlock := by
      rw [updateHtlcStatus_hashlock]; exact hsec
    have hcan : StellarFusion.canWithdrawAt configs
        (StellarFusion.updateHtlcStatus t htlc) w = true := by
      simp [StellarFusion.canWithdrawAt, hstage]
    cases he : StellarFusion.withdraw keccak configs t addr htlcs htlcId
        w secret with
    | ok out => exact ⟨out, rfl⟩
    | error e =>
        exfalso
        simp [StellarFusion.withdraw, hget, h1, h2, hsec', hcan] at he

def c3Htlc : StellarFusion.FusionHTLC := {
  id := 1
  sender := "alice"
  receiver := "bob"
  token := "tok"
  amount := 100
  hashlock := "hl"
  secret := none
  status := .Pending
  finalityTime := 10
  takerDeadline := 20
  publicDeadline := 30
  cancellationStart := 40
  cancellationPublic := 50
  allowedResolvers := ["wl"]
  takerAddress := "taker"
  resolverFeeBps := 100
  withdrawnBy := none
  cancelledBy := none }

def c3Htlcs : List (Nat × StellarFusion.FusionHTLC) := [(1, c3Htlc)]

def c3Staged : StellarFusion.FusionHTLC :=
  StellarFusion.updateHtlcStatus 25 c3Htlc

/-- Witness for C3: caller `rando` (neither taker, nor whitelisted, nor a
global resolver) is rejected at time 25 (`PrivateSettlement`) and
succeeds at time 35 (`PublicSettlement`) with the valid secret. -/
theorem withdraw_stage_authorization_witness :
    ((c3Staged.status = .Pending →
       StellarFusion.canWithdrawAt [] c3Staged "rando" = false) ∧
     (c3Staged.status = .TakerSettlement →
       (StellarFusion.canWithdrawAt [] c3Staged "rando" = true ↔
        "rando" = c3Staged.takerAddress)) ∧
     (c3Staged.status = .PrivateSettlement →
       (StellarFusion.canWithdrawAt [] c3Staged "rando" = true ↔
        ("rando" = c3Staged.takerAddress ∨
         c3Staged.allowedResolvers.contains "rando" = true ∨
         StellarFusion.isGlobalResolver [] "rando" = true))) ∧
     (c3Staged.status = .PublicSettlement →
       StellarFusion.canWithdrawAt [] c3Staged "rando" = true) ∧
     (c3Staged.status = .PrivateCancellation ∨
      c3Staged.status = .PublicCancellation →
       StellarFusion.canWithdrawAt [] c3Staged "rando" = false)) ∧
    (StellarFusion.withdraw idHash [] 25 "contract" c3Htlcs 1 "rando"
       "hl" = .error "Not authorized to withdraw at this stage" ∨
     StellarFusion.withdraw idHash [] 25 "contract" c3Htlcs 1 "rando"
       "hl" = .error "Invalid secret") ∧
    (∃ out, StellarFusion.withdraw idHash [] 35 "contract" c3Htlcs 1
       "rando" "hl" = .ok out) :=
  ⟨withdraw_stage_authorization.1 [] c3Staged "rando",
   withdraw_stage_authorization.2.1 idHash [] 25 "contract" c3Htlcs 1
     "rando" "hl" c3Htlc (by decide) (by decide) (by decide) (by decide)
     (by decide),
   withdraw_stage_authorization.2.2 idHash [] 35 "contract" c3Htlcs 1
     "rando" "hl" c3Htlc (by decide) (by decide) (by decide)⟩

def c8Order : Bridge.BridgeOrder := {
  orderId := "bridge_order_0"
  initiator := "alice"
  sourceChainId := 1
  targetChainId := 2
  recipient := "bob"
  amount := ⟨"uatom", 4000⟩
  secretHash := "s3cr3t"
  timelock := 200
  status := .Failed
  createdAt := 0
  completedAt := none
  secret := none
  ibcPacketSequence := some 7 }

def c8State : Bridge.State :=
  ⟨⟨"owner", 50, 1, 100000, 600⟩, [], [("bridge_order_0", c8Order)], 1, []⟩

/-- Counterexample to C8: order `bridge_order_0` is `Failed` and the
caller is its initiator `alice`, yet at time 100 — before the order's
timelock 200 — `execute_refund_bridge_order` returns `TimelockNotExpired`
instead of succeeding: a `Failed` order is not refundable until the
timelock passes. -/
theorem failed_order_refund_counterexample :
    (mapGet c8State.orders "bridge_order_0").map (fun o => o.status) =
      some .Failed ∧
    (mapGet c8State.orders "bridge_order_0").map (fun o => o.initiator) =
      some "alice" ∧
    (mapGet c8State.orders "bridge_order_0").map (fun o => o.timelock) =
      some 200 ∧
    Bridge.executeRefundBridgeOrder c8State 100 "alice" "bridge_order_0" =
      .error .TimelockNotExpired :=
  ⟨rfl, rfl, rfl, rfl⟩

/-- C8 (amended): a timeout — or a failure acknowledgement — for a stored
sequence `S` marks the order `Failed` and removes the pending-transfer
record; a duplicate ack or timeout for `S` is a state-preserving no-op
(the handlers never error); and once the order is `Failed` a refund by
the initiator succeeds — but only once the order's timelock has expired —
returning the full locked amount. -/
theorem failed_order_refund_amended :
    (∀ (st : Bridge.State) (seq : Nat) (tr : Bridge.IbcTransfer)
       (order : Bridge.BridgeOrder),
       mapGet st.ibcTransfers seq = some tr →
       mapGet st.orders tr.orderId = some order →
       (mapGet (Bridge.ibcPacketTimeout st seq).orders tr.orderId =
          some { order with status := .Failed } ∧
        mapGet (Bridge.ibcPacketTimeout st seq).ibcTransfers seq = none) ∧
       (mapGet (Bridge.ibcPacketAck st seq false).orders tr.orderId =
          some { order with status := .Failed } ∧
        mapGet (Bridge.ibcPacketAck st seq false).ibcTransfers seq =
          none)) ∧
    (∀ (st : Bridge.State) (seq : Nat),
       mapGet st.ibcTransfers seq = none →
       Bridge.ibcPacketTimeout st seq = st ∧
       Bridge.ibcPacketAck st seq false = st ∧
       Bridge.ibcPacketAck st seq true = st) ∧
    (∀ (st : Bridge.State) (t : Nat) (caller orderId : String)
       (order : Bridge.BridgeOrder),
       mapGet st.orders orderId = some order →
       order.status = .Failed →
       caller = order.initiator →
       t ≥ order.timelock →
       ∃ st', Bridge.executeRefundBridgeOrder st t caller orderId =
           .ok (st', ⟨order.initiator, order.amount⟩) ∧
         mapGet st'.orders orderId =
           some { order with status := .Refunded, completedAt := some t }) := by
  refine ⟨?_, ?_, ?_⟩
  · intro st seq tr order htr horder
    constructor
    · constructor
      · simp [Bridge.ibcPacketTimeout, htr, horder, mapGet_mapSet_same]
      · simp [Bridge.ibcPacketTimeout, htr, horder, mapGet_mapRemove_same]
    · constructor
      · simp [Bridge.ibcPacketAck, htr, horder, mapGet_mapSet_same]
      · simp [Bridge.ibcPacketAck, htr, horder, mapGet_mapRemove_same]
  · intro st seq hnone
    refine ⟨?_, ?_, ?_⟩ <;> simp [Bridge.ibcPacketTimeout,
      Bridge.ibcPacketAck, hnone]
  · intro st t caller orderId order hget hstatus hc ht
    refine ⟨{ st with orders := mapSet st.orders orderId ({ order with status := .Refunded, completedAt := some t }) }, ?_, ?_⟩
    · simp [Bridge.executeRefundBridgeOrder, hget, hc, hstatus,
        Nat.not_lt.mpr ht]
    · exact mapGet_mapSet_same st.orders orderId _

def c8WOrder : Bridge.BridgeOrder := {
  orderId := "bridge_order_1"
  initiator := "carol"
  sourceChainId := 1
  targetChainId := 2
  recipient := "bob"
  amount := ⟨"uatom", 900⟩
  secretHash := "s3cr3t"
  timelock := 300
  status := .Active
  createdAt := 0
  completedAt := none
  secret := some "sec"
  ibcPacketSequence := some 7 }

def c8WTransfer : Bridge.IbcTransfer :=
  ⟨"bridge_order_1", 7, "channel-0", "contract", "bob", ⟨"uatom", 880⟩,
   999⟩

def c8WState : Bridge.State :=
  ⟨⟨"owner", 50, 1, 100000, 600⟩, [],
   [("bridge_order_1", c8WOrder)], 1, [(7, c8WTransfer)]⟩

/-- Witness for the amended C8 on concrete states: sequence 7 is stored in
`c8WState` (timeout and failure-ack handling plus duplicate no-ops), and
the `Failed` order of `c8State` is refunded at time 250 ≥ timelock 200. -/
theorem failed_order_refund_amended_witness :
    (mapGet c8WState.ibcTransfers 7 = some c8WTransfer ∧
     mapGet c8WState.orders "bridge_order_1" = some c8WOrder ∧
     ((mapGet (Bridge.ibcPacketTimeout c8WState 7).orders
         "bridge_order_1" = some { c8WOrder with status := .Failed } ∧
       mapGet (Bridge.ibcPacketTimeout c8WState 7).ibcTransfers 7 =
         none) ∧
      (mapGet (Bridge.ibcPacketAck c8WState 7 false).orders
         "bridge_order_1" = some { c8WOrder with status := .Failed } ∧
       mapGet (Bridge.ibcPacketAck c8WState 7 false).ibcTransfers 7 =
         none))) ∧
    (mapGet c8WState.ibcTransfers 9 = none ∧
     (Bridge.ibcPacketTimeout c8WState 9 = c8WState ∧
      Bridge.ibcPacketAck c8WState 9 false = c8WState ∧
      Bridge.ibcPacketAck c8WState 9 true = c8WState)) ∧
    (mapGet c8State.orders "bridge_order_0" = some c8Order ∧
     c8Order.status = .Failed ∧
     (250 : Nat) ≥ c8Order.timelock ∧
     (∃ st', Bridge.executeRefundBridgeOrder c8State 250 "alice"
         "bridge_order_0" = .ok (st', ⟨c8Order.initiator, c8Order.amount⟩) ∧
       mapGet st'.orders "bridge_order_0" =
         some { c8Order with status := .Refunded, completedAt := some 250 })) :=
  ⟨⟨by rfl, by rfl,
    (failed_order_refund_amended.1 c8WState 7 c8WTransfer c8WOrder
      (by rfl) (by rfl) : _)⟩,
   ⟨by rfl,
    failed_order_refund_amended.2.1 c8WState 9 (by rfl)⟩,
   ⟨by rfl, by rfl, by decide,
    failed_order_refund_amended.2.2 c8State 250 "alice" "bridge_order_0"
      c8Order (by rfl) (by rfl) (by rfl) (by decide)⟩⟩

def c9Hashlock : String :=
  "aaaaaaaaaaaaaaaaaaaaaaaaaaaaaaaaaaaaaaaaaaaaaaaaaaaaaaaaaaaaaaaa"

def c9State0 : FusionPlus.State := ⟨[], [], [], [], [], 1, 1, 0, 0⟩

def c9Result1 :=
  FusionPlus.createHtlc c9State0 "alice" 1000 0 "bob" c9Hashlock 3600
    false none false

def c9State1 : FusionPlus.State :=
  match c9Result1 with
  | .ok (st, _) => st
  | .error _ => c9State0

def c9Result2 :=
  FusionPlus.createHtlc c9State1 "carl" 500 0 "dave" c9Hashlock 3600
    false none false

def c9State2 : FusionPlus.State :=
  match c9Result2 with
  | .ok (st, _) => st
  | .error _ => c9State1

/-- Counterexample to C9: `create_htlc` performs no uniqueness check on
the hashlock.  Creating `htlc_1` with hashlock `H` and then `htlc_2` with
the same `H` succeeds, and afterwards `get_htlc_by_hashlock H` returns
`htlc_2` even though `htlc_1` still exists — the later creation re-bound
`H` to a different order. -/
theorem hashlock_index_counterexample :
    c9Result1 = .ok (c9State1, "htlc_1") ∧
    c9Result2 = .ok (c9State2, "htlc_2") ∧
    (mapGet c9State2.htlcs "htlc_1").isSome = true ∧
    (FusionPlus.getHtlcByHashlock c9State2 c9Hashlock).map
      (fun h => h.id) = some "htlc_2" :=
  ⟨rfl, rfl, rfl, rfl⟩

/-- C9 (amended): the `hashlock -> order_id` index is last-writer-wins,
not a uniqueness index: after any successful `create_htlc` with hashlock
`H`, looking `H` up returns the id of that (most recent) order; creation
never rejects a duplicate hashlock, so a later creation with the same
hashlock re-binds it. -/
theorem hashlock_index_amended :
    ∀ (st : FusionPlus.State) (sender : String) (dep t : Nat)
      (recv hl : String) (ts : Nat) (apf : Bool) (mfa : Option Nat)
      (rsd : Bool) (st' : FusionPlus.State) (hid : String),
      FusionPlus.createHtlc st sender dep t recv hl ts apf mfa rsd =
        .ok (st', hid) →
      mapGet st'.secretToHtlc hl = some hid ∧
      (FusionPlus.getHtlcByHashlock st' hl).map (fun h => h.id) =
        some hid := by
  intro st sender dep t recv hl ts apf mfa rsd st' hid hok
  simp only [FusionPlus.createHtlc] at hok
  by_cases h1 : ¬ dep > 0
  · simp [h1] at hok
  · by_cases h2 : hl.length ≠ 64
    · simp [h1, h2] at hok
    · by_cases h3 : ¬ (FusionPlus.MIN_TIMELOCK ≤ ts ∧
          ts ≤ FusionPlus.MAX_TIMELOCK)
      · simp [h1, h2, h3] at hok
      · by_cases hapf : apf
        · by_cases hmf : (mfa.getD (dep / 10)) > 0 ∧
              (mfa.getD (dep / 10)) ≤ dep
          · simp [h1, h2, h3, hapf, hmf] at hok
            obtain ⟨hst', hhid⟩ := hok
            subst hhid
            constructor
            · rw [← hst']
              exact mapGet_mapSet_same _ _ _
            · rw [← hst']
              simp [FusionPlus.getHtlcByHashlock, mapGet_mapSet_same]
          · simp [h1, h2, h3, hapf, hmf] at hok
        · simp [h1, h2, h3, hapf] at hok
          obtain ⟨hst', hhid⟩ := hok
          subst hhid
          constructor
          · rw [← hst']
            exact mapGet_mapSet_same _ _ _
          · rw [← hst']
            simp [FusionPlus.getHtlcByHashlock, mapGet_mapSet_same]

/-- Witness for the amended C9: creating `htlc_1` binds the hashlock to
`htlc_1` in the index. -/
theorem hashlock_index_amended_witness :
    FusionPlus.createHtlc c9State0 "alice" 1000 0 "bob" c9Hashlock 3600
      false none false = .ok (c9State1, "htlc_1") ∧
    mapGet c9State1.secretToHtlc c9Hashlock = some "htlc_1" ∧
    (FusionPlus.getHtlcByHashlock c9State1 c9Hashlock).map
      (fun h => h.id) = some "htlc_1" :=
  ⟨rfl,
   (hashlock_index_amended c9State0 "alice" 1000 0 "bob" c9Hashlock 3600
     false none false c9State1 "htlc_1" (by rfl)).1,
   (hashlock_index_amended c9State0 "alice" 1000 0 "bob" c9Hashlock 3600
     false none false c9State1 "htlc_1" (by rfl)).2⟩

def c7Fill : FusionPlus.PartialFill :=
  ⟨"fill_1", "htlc_1", "carol", 3, .Pending, 0⟩

def c7Htlc : FusionPlus.FusionHTLC := {
  id := "htlc_1"
  sender := "alice"
  receiver := "bob"
  tokenId := none
  totalAmount := 10
  remainingAmount := 7
  hashlock := "hl"
  timelock := 100
  secret := none
  allowPartialFills := true
  minFillAmount := 1
  safetyDepositAmount := 0
  status := .Refunded
  createdAt := 0 }

def c7State : FusionPlus.State :=
  ⟨[("htlc_1", c7Htlc)], [("htlc_1", [c7Fill])], [("hl", "htlc_1")], [],
   [], 2, 2, 10, 1⟩

def c7Result := FusionPlus.refundPartialFill c7State 100 "carol"
  "htlc_1" "fill_1"

def c7NewState : FusionPlus.State :=
  match c7Result with
  | .ok (st, _) => st
  | .error _ => c7State

def c7PFill : HtlcPartial.PartialFill :=
  ⟨"fill_1", "htlc_1", "carol", 3, "fsh", none, false, 0⟩

def c7PHtlc : HtlcPartial.HTLCPartial := {
  id := "htlc_1"
  sender := "alice"
  receiver := "bob"
  tokenId := none
  totalAmount := 10
  remainingAmount := 7
  minFillAmount := 1
  hashlock := "hl"
  timelock := 100
  allowPartialFills := true
  fills := ["fill_1"]
  withdrawn := false
  refunded := false
  createdAt := 0 }

def c7PState : HtlcPartial.State :=
  ⟨[("htlc_1", c7PHtlc)], [("fill_1", c7PFill)], 2, 2⟩

def c7PResult := HtlcPartial.refundPartialFill c7PState 100 "carol"
  "fill_1"

def c7PNewState : HtlcPartial.State :=
  match c7PResult with
  | .ok (st, _) => st
  | .error _ => c7PState

/-- Counterexample to C7.  In `fusion_plus`, `refund_partial_fill` on the
already-terminal (`Refunded`) order `htlc_1` succeeds and restores the
fill's 3 tokens to `remaining_amount` (7 → 10), contradicting "does not
restore remaining_amount on an already-terminal order".  In
`fusion_htlc_partial`, the refund deletes the `fill_1` record outright
while its parent order still exists, contradicting "the Fill record
itself is never deleted while its parent order exists". -/
theorem refund_fill_counterexample :
    ((mapGet c7State.htlcs "htlc_1").map (fun h => h.status) =
       some .Refunded ∧
     FusionPlus.refundPartialFill c7State 100 "carol" "htlc_1" "fill_1" =
       .ok (c7NewState, ⟨"carol", 3⟩) ∧
     (mapGet c7NewState.htlcs "htlc_1").map
       (fun h => (h.status, h.remainingAmount)) = some (.Refunded, 10)) ∧
    (HtlcPartial.refundPartialFill c7PState 100 "carol" "fill_1" =
       .ok (c7PNewState, ⟨"carol", 3⟩) ∧
     mapGet c7PNewState.partialFills "fill_1" = none ∧
     (mapGet c7PNewState.htlcs "htlc_1").isSome = true) :=
  ⟨⟨rfl, rfl, rfl⟩, ⟨rfl, rfl, rfl⟩⟩

/-- C7 (amended): `refund_partial_fill` succeeds only after the order's
expiry, only for the fill's original filler, and only while the fill is
still pending (unclaimed); on success it transfers exactly the fill's
reserved amount to the filler and adds that amount back to
`remaining_amount` unconditionally — including when the parent order is
already terminal.  In the `fusion_plus` variant the fill record is kept
and marked `Refunded`; in the `fusion_htlc_partial` variant the fill
record is removed from the store (and its id from the order's fill list)
while the parent order persists. -/
theorem refund_fill_amended :
    (∀ (st : FusionPlus.State) (t : Nat) (caller htlcId fillId : String)
       (st' : FusionPlus.State) (tr : FusionPlus.Transfer)
       (htlc : FusionPlus.FusionHTLC)
       (fills : List FusionPlus.PartialFill)
       (fill : FusionPlus.PartialFill),
       mapGet st.htlcs htlcId = some htlc →
       mapGet st.partialFills htlcId = some fills →
       FusionPlus.findFill fills fillId = some fill →
       (FusionPlus.refundPartialFill st t caller htlcId fillId =
           .ok (st', tr) →
         t ≥ htlc.timelock ∧ fill.status = .Pending ∧
         caller = fill.filler ∧ tr = ⟨fill.filler, fill.amount⟩ ∧
         mapGet st'.htlcs htlcId =
           some { htlc with
             remainingAmount := htlc.remainingAmount + fill.amount } ∧
         mapGet st'.partialFills htlcId =
           some (FusionPlus.replaceFill fills fillId
             { fill with status := .Refunded })) ∧
       (¬ t ≥ htlc.timelock →
         FusionPlus.refundPartialFill st t caller htlcId fillId =
           .error "Not expired") ∧
       (t ≥ htlc.timelock → fill.status ≠ .Pending →
         FusionPlus.refundPartialFill st t caller htlcId fillId =
           .error "Fill already processed") ∧
       (t ≥ htlc.timelock → fill.status = .Pending →
         caller ≠ fill.filler →
         FusionPlus.refundPartialFill st t caller htlcId fillId =
           .error "Not the filler")) ∧
    (∀ (st : HtlcPartial.State) (t : Nat) (caller fillId : String)
       (st' : HtlcPartial.State) (tr : HtlcPartial.Transfer)
       (fill : HtlcPartial.PartialFill) (htlc : HtlcPartial.HTLCPartial),
       mapGet st.partialFills fillId = some fill →
       mapGet st.htlcs fill.htlcId = some htlc →
       (HtlcPartial.refundPartialFill st t caller fillId =
           .ok (st', tr) →
         fill.claimed = false ∧ t ≥ htlc.timelock ∧
         caller = fill.filler ∧ tr = ⟨caller, fill.amount⟩ ∧
         mapGet st'.partialFills fillId = none ∧
         mapGet st'.htlcs fill.htlcId =
           some { htlc with
             remainingAmount := htlc.remainingAmount + fill.amount,
             fills := htlc.fills.filter (fun fid => fid ≠ fillId) }) ∧
       (fill.claimed = false → t ≥ htlc.timelock →
         caller ≠ fill.filler →
         HtlcPartial.refundPartialFill st t caller fillId =
           .error "Not the filler")) := by
  constructor
  · intro st t caller htlcId fillId st' tr htlc fills fill hhtlc hfills
      hfind
    refine ⟨?_, ?_, ?_, ?_⟩
    · intro hok
      simp only [FusionPlus.refundPartialFill, hhtlc, hfills, hfind]
        at hok
      by_cases ht : t ≥ htlc.timelock
      · by_cases hpend : fill.status ≠ FusionPlus.FillStatus.Pending
        · simp [ht, hpend] at hok
        · push_neg at hpend
          by_cases hc : caller ≠ fill.filler
          · simp [ht, hpend, hc] at hok
          · push_neg at hc
            simp [ht, hpend, hc] at hok
            obtain ⟨hst', htr⟩ := hok
            refine ⟨ht, hpend, hc, htr.symm, ?_, ?_⟩
            · rw [← hst']
              exact mapGet_mapSet_same _ _ _
            · rw [← hst']
              simp [mapGet_mapSet_same]
      · simp [ht] at hok
    · intro ht
      simp [FusionPlus.refundPartialFill, hhtlc, hfills, hfind, ht]
    · intro ht hpend
      simp [FusionPlus.refundPartialFill, hhtlc, hfills, hfind, ht,
        hpend]
    · intro ht hpend hc
      simp [FusionPlus.refundPartialFill, hhtlc, hfills, hfind, ht,
        hpend, hc]
  · intro st t caller fillId st' tr fill htlc hfill hhtlc
    constructor
    · intro hok
      simp only [HtlcPartial.refundPartialFill, hfill, hhtlc] at hok
      by_cases hcl : fill.claimed
      · simp [hcl] at hok
      · by_cases ht : t ≥ htlc.timelock
        · by_cases hc : caller ≠ fill.filler
          · simp [hcl, ht, hc] at hok
          · push_neg at hc
            simp [hcl, ht, hc] at hok
            obtain ⟨hst', htr⟩ := hok
            refine ⟨by simpa using hcl, ht, hc, ?_, ?_, ?_⟩
            · rw [← htr, hc]
            · rw [← hst']
              exact mapGet_mapRemove_same _ _
            · rw [← hst']
              simp [mapGet_mapSet_same]
        · simp [hcl, ht] at hok
    · intro hcl ht hc
      simp [HtlcPartial.refundPartialFill, hfill, hhtlc, hcl, ht, hc]

/-- Witness for the amended C7: the concrete refunds of `fill_1` in both
variants, with all guards satisfied and the stated effects. -/
theorem refund_fill_amended_witness :
    (100 ≥ c7Htlc.timelock ∧ c7Fill.status = .Pending ∧
     "carol" = c7Fill.filler ∧
     (⟨"carol", 3⟩ : FusionPlus.Transfer) =
       ⟨c7Fill.filler, c7Fill.amount⟩ ∧
     mapGet c7NewState.htlcs "htlc_1" =
       some { c7Htlc with
         remainingAmount := c7Htlc.remainingAmount + c7Fill.amount } ∧
     mapGet c7NewState.partialFills "htlc_1" =
       some (FusionPlus.replaceFill [c7Fill] "fill_1"
         { c7Fill with status := .Refunded })) ∧
    (c7PFill.claimed = false ∧ 100 ≥ c7PHtlc.timelock ∧
     "carol" = c7PFill.filler ∧
     (⟨"carol", 3⟩ : HtlcPartial.Transfer) = ⟨"carol", c7PFill.amount⟩ ∧
     mapGet c7PNewState.partialFills "fill_1" = none ∧
     mapGet c7PNewState.htlcs "htlc_1" =
       some { c7PHtlc with
         remainingAmount := c7PHtlc.remainingAmount + c7PFill.amount,
         fills := c7PHtlc.fills.filter (fun fid => fid ≠ "fill_1") }) :=
  ⟨(refund_fill_amended.1 c7State 100 "carol" "htlc_1" "fill_1"
      c7NewState ⟨"carol", 3⟩ c7Htlc [c7Fill] c7Fill (by rfl) (by rfl)
      (by rfl)).1 (by rfl),
   (refund_fill_amended.2 c7PState 100 "carol" "fill_1" c7PNewState
      ⟨"carol", 3⟩ c7PFill c7PHtlc (by rfl) (by rfl)).1 (by rfl)⟩

namespace FusionPlus

/-- The total amount reserved by fills that have not been refunded
("filled amount" in the spec's sense). -/
def activeFillSum : List PartialFill → Nat
  | [] => 0
  | f :: rest =>
      (if f.status = .Refunded then 0 else f.amount) + activeFillSum rest

/-- The fill list stored for an HTLC (empty when absent, as in
`get_partial_fills`). -/
def fillsOf (st : State) (htlcId : String) : List PartialFill :=
  (mapGet st.partialFills htlcId).getD []

/-- The C6 accounting invariant: for every stored order, the amounts of
its non-refunded fills plus `remaining_amount` equal `total_amount`. -/
def accountingInv (st : State) : Prop :=
  ∀ htlcId htlc, mapGet st.htlcs htlcId = some htlc →
    activeFillSum (fillsOf st htlcId) + htlc.remainingAmount =
      htlc.totalAmount

theorem activeFillSum_append (fills : List PartialFill)
    (f : PartialFill) :
    activeFillSum (fills ++ [f]) =
      activeFillSum fills +
        (if f.status = .Refunded then 0 else f.amount) := by
  induction fills with
  | nil => simp [activeFillSum]
  | cons g rest ih => simp [activeFillSum, ih]; omega

theorem activeFillSum_replaceFill (fills : List PartialFill)
    (fid : String) (f g : PartialFill)
    (hfind : findFill fills fid = some f) :
    activeFillSum (replaceFill fills fid g) +
        (if f.status = .Refunded then 0 else f.amount) =
      activeFillSum fills +
        (if g.status = .Refunded then 0 else g.amount) := by
  induction fills with
  | nil => simp [findFill] at hfind
  | cons f₀ rest ih =>
      by_cases h : f₀.id = fid
      · simp only [findFill, if_pos h] at hfind
        cases hfind
        simp only [replaceFill, if_pos h, activeFillSum]
        omega
      · simp only [findFill, if_neg h] at hfind
        simp only [replaceFill, if_neg h, activeFillSum]
        have := ih hfind
        omega

end FusionPlus

namespace StellarPartialFill

/-- Sum of all recorded fill amounts (fills are never refunded
individually in this contract). -/
def fillSum : List Fill → Int
  | [] => 0
  | f :: rest => f.amount + fillSum rest

theorem fillSum_append (fills : List Fill) (f : Fill) :
    fillSum (fills ++ [f]) = fillSum fills + f.amount := by
  induction fills with
  | nil => simp [fillSum]
  | cons g rest ih => simp [fillSum, ih]; ring

end StellarPartialFill

theorem accountingInv_htlcs_mapSet (st st' : FusionPlus.State)
    (hid : String) (htlc' : FusionPlus.FusionHTLC)
    (newFills : List FusionPlus.PartialFill)
    (hh : st'.htlcs = mapSet st.htlcs hid htlc')
    (hpfSame : FusionPlus.fillsOf st' hid = newFills)
    (hpfOther : ∀ k, k ≠ hid →
      FusionPlus.fillsOf st' k = FusionPlus.fillsOf st k)
    (hbal : FusionPlus.activeFillSum newFills + htlc'.remainingAmount =
      htlc'.totalAmount)
    (hinv : FusionPlus.accountingInv st) :
    FusionPlus.accountingInv st' := by
  intro k h hk
  rw [hh] at hk
  by_cases hkk : k = hid
  · subst hkk
    rw [mapGet_mapSet_same] at hk
    cases hk
    rw [hpfSame]
    exact hbal
  · rw [mapGet_mapSet_other _ _ _ _ hkk] at hk
    rw [hpfOther k hkk]
    exact hinv k h hk

theorem accountingInv_fills_update (st st' : FusionPlus.State)
    (hid : String) (newFills : List FusionPlus.PartialFill)
    (hh : st'.htlcs = st.htlcs)
    (hpfSame : FusionPlus.fillsOf st' hid = newFills)
    (hsum : FusionPlus.activeFillSum newFills =
      FusionPlus.activeFillSum (FusionPlus.fillsOf st hid))
    (hpfOther : ∀ k, k ≠ hid →
      FusionPlus.fillsOf st' k = FusionPlus.fillsOf st k)
    (hinv : FusionPlus.accountingInv st) :
    FusionPlus.accountingInv st' := by
  intro k h hk
  rw [hh] at hk
  by_cases hkk : k = hid
  · subst hkk
    rw [hpfSame, hsum]
    exact hinv k h hk
  · rw [hpfOther k hkk]
    exact hinv k h hk

theorem accountingInv_createHtlc (st : FusionPlus.State)
    (sender : String) (dep t : Nat) (recv hl : String) (ts : Nat)
    (apf : Bool) (mfa : Option Nat) (rsd : Bool)
    (st' : FusionPlus.State) (hid : String)
    (hok : FusionPlus.createHtlc st sender dep t recv hl ts apf mfa rsd =
      .ok (st', hid))
    (hfresh : mapGet st.partialFills
      ("htlc_" ++ toString st.nextHtlcId) = none)
    (hinv : FusionPlus.accountingInv st) :
    FusionPlus.accountingInv st' := by
  simp only [FusionPlus.createHtlc] at hok
  by_cases h1 : ¬ dep > 0
  · simp [h1] at hok
  · by_cases h2 : hl.length ≠ 64
    · simp [h1, h2] at hok
    · by_cases h3 : ¬ (FusionPlus.MIN_TIMELOCK ≤ ts ∧
          ts ≤ FusionPlus.MAX_TIMELOCK)
      · simp [h1, h2, h3] at hok
      · by_cases hapf : apf
        · by_cases hmf : (mfa.getD (dep / 10)) > 0 ∧
              (mfa.getD (dep / 10)) ≤ dep
          · simp [h1, h2, h3, hapf, hmf] at hok
            obtain ⟨hst', -⟩ := hok
            subst hst'
            refine accountingInv_htlcs_mapSet st _
              ("htlc_" ++ toString st.nextHtlcId) _ [] rfl ?_ ?_ ?_ hinv
            · simp [FusionPlus.fillsOf, mapGet_mapSet_same]
            · intro k hkk
              simp [FusionPlus.fillsOf,
                mapGet_mapSet_other _ _ _ _ hkk]
            · simp [FusionPlus.activeFillSum]
          · simp [h1, h2, h3, hapf, hmf] at hok
        · simp [h1, h2, h3, hapf] at hok
          obtain ⟨hst', -⟩ := hok
          subst hst'
          refine accountingInv_htlcs_mapSet st _
            ("htlc_" ++ toString st.nextHtlcId) _ [] rfl ?_ ?_ ?_ hinv
          · simp [FusionPlus.fillsOf, hfresh]
          · intro k hkk
            simp [FusionPlus.fillsOf]
          · simp [FusionPlus.activeFillSum]

theorem accountingInv_createPartialFill (st : FusionPlus.State)
    (filler : String) (attached t : Nat) (htlcId : String) (amt : Nat)
    (st' : FusionPlus.State) (fid : String)
    (hok : FusionPlus.createPartialFill st filler attached t htlcId amt =
      .ok (st', fid))
    (hinv : FusionPlus.accountingInv st) :
    FusionPlus.accountingInv st' := by
  simp only [FusionPlus.createPartialFill] at hok
  rcases hget : mapGet st.htlcs htlcId with - | htlc
  · simp [hget] at hok
  · simp only [hget] at hok
    by_cases g1 : ¬ htlc.allowPartialFills
    · simp [g1] at hok
    · by_cases g2 : ¬ (htlc.status = .Active ∨
          htlc.status = .PartiallyFilled)
      · simp [g1, g2] at hok
      · by_cases g3 : ¬ t < htlc.timelock
        · simp [g1, g2, g3] at hok
        · by_cases g4 : ¬ amt ≥ htlc.minFillAmount
          · simp [g1, g2, g3, g4] at hok
          · by_cases g5 : ¬ amt ≤ htlc.remainingAmount
            · simp [g1, g2, g3, g4, g5] at hok
            · by_cases g6 : ¬ attached ≥ amt
              · simp [g1, g2, g3, g4, g5, g6] at hok
              · simp [g1, g2, g3, g4, g5, g6] at hok
                obtain ⟨hst', -⟩ := hok
                subst hst'
                have hbase := hinv htlcId htlc hget
                push_neg at g5
                refine accountingInv_htlcs_mapSet st _ htlcId _
                  (FusionPlus.fillsOf st htlcId ++
                    [⟨"fill_" ++ toString st.nextFillId, htlcId, filler,
                      amt, .Pending, t⟩]) rfl ?_ ?_ ?_ hinv
                · simp [FusionPlus.fillsOf, mapGet_mapSet_same]
                · intro k hkk
                  simp [FusionPlus.fillsOf,
                    mapGet_mapSet_other _ _ _ _ hkk]
                · rw [FusionPlus.activeFillSum_append]
                  rw [if_neg (by decide : ¬ (FusionPlus.FillStatus.Pending = FusionPlus.FillStatus.Refunded))]
                  show FusionPlus.activeFillSum (FusionPlus.fillsOf st htlcId) + amt + (htlc.remainingAmount - amt) = htlc.totalAmount
                  omega

theorem accountingInv_withdrawPartialFill (hash : String → String)
    (st : FusionPlus.State) (t : Nat) (w htlcId fid secret : String)
    (st' : FusionPlus.State) (tr : FusionPlus.Transfer)
    (hok : FusionPlus.withdrawPartialFill hash st t w htlcId fid secret =
      .ok (st', tr))
    (hinv : FusionPlus.accountingInv st) :
    FusionPlus.accountingInv st' := by
  simp only [FusionPlus.withdrawPartialFill] at hok
  rcases hget : mapGet st.htlcs htlcId with - | htlc
  · simp [hget] at hok
  · simp only [hget] at hok
    by_cases g1 : w ≠ htlc.receiver
    · simp [g1] at hok
    · by_cases g2 : ¬ t < htlc.timelock
      · simp [g1, g2] at hok
      · by_cases g3 : hash secret ≠ htlc.hashlock
        · simp [g1, g2, g3] at hok
        · rcases hfills : mapGet st.partialFills htlcId with - | fills
          · simp [g1, g2, g3, hfills] at hok
          · simp only [hfills] at hok
            rcases hfind : FusionPlus.findFill fills fid with - | fill
            · simp [g1, g2, g3, hfind] at hok
            · simp only [hfind] at hok
              by_cases g4 : fill.status ≠ FusionPlus.FillStatus.Pending
              · simp [g1, g2, g3, g4] at hok
              · push_neg at g4
                simp [g1, g2, g3, g4] at hok
                obtain ⟨hst', -⟩ := hok
                have hfsum := FusionPlus.activeFillSum_replaceFill fills
                  fid fill { fill with status := .Completed } hfind
                rw [g4] at hfsum
                simp at hfsum
                have hfof : FusionPlus.fillsOf st htlcId = fills := by
                  simp [FusionPlus.fillsOf, hfills]
                have hbase := hinv htlcId htlc hget
                rw [hfof] at hbase
                split at hst'
                · subst hst'
                  refine accountingInv_htlcs_mapSet st _ htlcId _
                    (FusionPlus.replaceFill fills fid
                      { fill with status := .Completed }) rfl ?_ ?_ ?_
                    hinv
                  · simp [FusionPlus.fillsOf, mapGet_mapSet_same]
                  · intro k hkk
                    simp [FusionPlus.fillsOf,
                      mapGet_mapSet_other _ _ _ _ hkk]
                  · show FusionPlus.activeFillSum _ + htlc.remainingAmount = htlc.totalAmount
                    omega
                · subst hst'
                  refine accountingInv_fills_update st _ htlcId
                    (FusionPlus.replaceFill fills fid
                      { fill with status := .Completed }) rfl ?_ ?_ ?_
                    hinv
                  · simp [FusionPlus.fillsOf, mapGet_mapSet_same]
                  · rw [hfof]
                    omega
                  · intro k hkk
                    simp [FusionPlus.fillsOf,
                      mapGet_mapSet_other _ _ _ _ hkk]

theorem accountingInv_refundPartialFill (st : FusionPlus.State)
    (t : Nat) (caller htlcId fid : String) (st' : FusionPlus.State)
    (tr : FusionPlus.Transfer)
    (hok : FusionPlus.refundPartialFill st t caller htlcId fid =
      .ok (st', tr))
    (hinv : FusionPlus.accountingInv st) :
    FusionPlus.accountingInv st' := by
  simp only [FusionPlus.refundPartialFill] at hok
  rcases hget : mapGet st.htlcs htlcId with - | htlc
  · simp [hget] at hok
  · simp only [hget] at hok
    by_cases g1 : ¬ t ≥ htlc.timelock
    · simp [g1] at hok
    · rcases hfills : mapGet st.partialFills htlcId with - | fills
      · simp [g1, hfills] at hok
      · simp only [hfills] at hok
        rcases hfind : FusionPlus.findFill fills fid with - | fill
        · simp [g1, hfind] at hok
        · simp only [hfind] at hok
          by_cases g2 : fill.status ≠ FusionPlus.FillStatus.Pending
          · simp [g1, g2] at hok
          · push_neg at g2
            by_cases g3 : caller ≠ fill.filler
            · simp [g1, g2, g3] at hok
            · simp [g1, g2, g3] at hok
              obtain ⟨hst', -⟩ := hok
              subst hst'
              have hfsum := FusionPlus.activeFillSum_replaceFill fills
                fid fill { fill with status := .Refunded } hfind
              rw [g2] at hfsum
              simp at hfsum
              have hfof : FusionPlus.fillsOf st htlcId = fills := by
                simp [FusionPlus.fillsOf, hfills]
              have hbase := hinv htlcId htlc hget
              rw [hfof] at hbase
              refine accountingInv_htlcs_mapSet st _ htlcId _
                (FusionPlus.replaceFill fills fid
                  { fill with status := .Refunded }) rfl ?_ ?_ ?_ hinv
              · simp [FusionPlus.fillsOf, mapGet_mapSet_same]
              · intro k hkk
                simp [FusionPlus.fillsOf,
                  mapGet_mapSet_other _ _ _ _ hkk]
              · show FusionPlus.activeFillSum _ + (htlc.remainingAmount + fill.amount) = htlc.totalAmount
                omega

theorem fillHtlc_preserves_fillSum (keccak : String → String)
    (deposits : List (String × Int)) (t : Nat) (addr : String)
    (htlcs : List (Nat × StellarPartialFill.PartialHTLC)) (hid : Nat)
    (filler : String) (amt : Int) (secret : String)
    (htlcs' : List (Nat × StellarPartialFill.PartialHTLC))
    (tr : StellarFusion.TokenTransfer)
    (htlc : StellarPartialFill.PartialHTLC)
    (hget : mapGet htlcs hid = some htlc)
    (hok : StellarPartialFill.fillHtlc keccak deposits t addr htlcs hid
      filler amt secret = .ok (htlcs', tr))
    (hsum : StellarPartialFill.fillSum htlc.fills = htlc.filledAmount) :
    ∀ htlc', mapGet htlcs' hid = some htlc' →
      StellarPartialFill.fillSum htlc'.fills = htlc'.filledAmount ∧
      htlc'.filledAmount ≤ htlc'.totalAmount := by
  simp only [StellarPartialFill.fillHtlc, hget] at hok
  by_cases g1 : htlc.completed ∨ htlc.refunded
  · simp [g1] at hok
  · by_cases g2 : ¬ t < htlc.timelock
    · simp [g1, g2] at hok
    · by_cases g3 : ¬ amt ≥ htlc.minFillAmount
      · simp [g1, g2, g3] at hok
      · by_cases g4 : ¬ htlc.filledAmount + amt ≤ htlc.totalAmount
        · simp [g1, g2, g3, g4] at hok
        · by_cases g5 : keccak secret ≠ htlc.hashlock
          · simp [g1, g2, g3, g4, g5] at hok
          · by_cases g6 : ¬ (mapGet deposits filler).getD 0 ≥
                Int.tdiv (amt * htlc.totalAmount) htlc.totalAmount
            · simp [g1, g2, g3, g4, g5, g6] at hok
            · simp [g1, g2, g3, g4, g5, g6] at hok
              obtain ⟨hhtlcs', -⟩ := hok
              intro htlc' hget'
              rw [← hhtlcs'] at hget'
              push_neg at g4
              split at hget'
              · rw [mapGet_mapSet_same] at hget'
                cases hget'
                constructor
                · simp [StellarPartialFill.fillSum_append, hsum]
                · exact g4
              · rw [mapGet_mapSet_same] at hget'
                cases hget'
                constructor
                · simp [StellarPartialFill.fillSum_append, hsum]
                · exact g4

/-- C6: the partial-fill accounting invariant — the sum of the amounts of
all non-refunded fills plus `remaining_amount` equals `total_amount` —
holds after every operation of the NEAR fusion-plus contract: order
creation, fill creation (which subtracts the fill from
`remaining_amount`), fill withdrawal, and fill refund (which restores the
amount).  In the Stellar partial-fill contract the same invariant reads
`sum of fills = filled_amount ≤ total_amount` (with
`remaining = total - filled` implicit), and `fill_htlc` preserves it. -/
theorem fill_accounting_invariant :
    (∀ (st : FusionPlus.State) (sender : String) (dep t : Nat)
       (recv hl : String) (ts : Nat) (apf : Bool) (mfa : Option Nat)
       (rsd : Bool) (st' : FusionPlus.State) (hid : String),
       FusionPlus.createHtlc st sender dep t recv hl ts apf mfa rsd =
         .ok (st', hid) →
       mapGet st.partialFills ("htlc_" ++ toString st.nextHtlcId) =
         none →
       FusionPlus.accountingInv st → FusionPlus.accountingInv st') ∧
    (∀ (st : FusionPlus.State) (filler : String) (attached t : Nat)
       (htlcId : String) (amt : Nat) (st' : FusionPlus.State)
       (fid : String),
       FusionPlus.createPartialFill st filler attached t htlcId amt =
         .ok (st', fid) →
       FusionPlus.accountingInv st → FusionPlus.accountingInv st') ∧
    (∀ (hash : String → String) (st : FusionPlus.State) (t : Nat)
       (w htlcId fid secret : String) (st' : FusionPlus.State)
       (tr : FusionPlus.Transfer),
       FusionPlus.withdrawPartialFill hash st t w htlcId fid secret =
         .ok (st', tr) →
       FusionPlus.accountingInv st → FusionPlus.accountingInv st') ∧
    (∀ (st : FusionPlus.State) (t : Nat) (caller htlcId fid : String)
       (st' : FusionPlus.State) (tr : FusionPlus.Transfer),
       FusionPlus.refundPartialFill st t caller htlcId fid =
         .ok (st', tr) →
       FusionPlus.accountingInv st → FusionPlus.accountingInv st') ∧
    (∀ (keccak : String → String) (deposits : List (String × Int))
       (t : Nat) (addr : String)
       (htlcs : List (Nat × StellarPartialFill.PartialHTLC)) (hid : Nat)
       (filler : String) (amt : Int) (secret : String)
       (htlcs' : List (Nat × StellarPartialFill.PartialHTLC))
       (tr : StellarFusion.TokenTransfer)
       (htlc : StellarPartialFill.PartialHTLC),
       mapGet htlcs hid = some htlc →
       StellarPartialFill.fillHtlc keccak deposits t addr htlcs hid
         filler amt secret = .ok (htlcs', tr) →
       StellarPartialFill.fillSum htlc.fills = htlc.filledAmount →
       ∀ htlc', mapGet htlcs' hid = some htlc' →
         StellarPartialFill.fillSum htlc'.fills = htlc'.filledAmount ∧
         htlc'.filledAmount ≤ htlc'.totalAmount) :=
  ⟨fun st sender dep t recv hl ts apf mfa rsd st' hid hok hfresh hinv =>
     accountingInv_createHtlc st sender dep t recv hl ts apf mfa rsd st'
       hid hok hfresh hinv,
   fun st filler attached t htlcId amt st' fid hok hinv =>
     accountingInv_createPartialFill st filler attached t htlcId amt st'
       fid hok hinv,
   fun hash st t w htlcId fid secret st' tr hok hinv =>
     accountingInv_withdrawPartialFill hash st t w htlcId fid secret st'
       tr hok hinv,
   fun st t caller htlcId fid st' tr hok hinv =>
     accountingInv_refundPartialFill st t caller htlcId fid st' tr hok
       hinv,
   fun keccak deposits t addr htlcs hid filler amt secret htlcs' tr htlc
       hget hok hsum =>
     fillHtlc_preserves_fillSum keccak deposits t addr htlcs hid filler
       amt secret htlcs' tr htlc hget hok hsum⟩

def c6Htlc : FusionPlus.FusionHTLC := {
  id := "htlc_1"
  sender := "alice"
  receiver := "bob"
  tokenId := none
  totalAmount := 10
  remainingAmount := 10
  hashlock := "hl"
  timelock := 100
  secret := none
  allowPartialFills := true
  minFillAmount := 1
  safetyDepositAmount := 0
  status := .Active
  createdAt := 0 }

def c6State : FusionPlus.State :=
  ⟨[("htlc_1", c6Htlc)], [("htlc_1", [])], [("hl", "htlc_1")], [],
   ["htlc_1"], 2, 1, 10, 1⟩

def c6Result := FusionPlus.createPartialFill c6State "carol" 3 0
  "htlc_1" 3

def c6NewState : FusionPlus.State :=
  match c6Result with
  | .ok (st, _) => st
  | .error _ => c6State

def c6NewHtlc : FusionPlus.FusionHTLC :=
  (mapGet c6NewState.htlcs "htlc_1").getD c6Htlc

def c6SHtlc : StellarPartialFill.PartialHTLC := {
  id := 1
  sender := "alice"
  receiver := "bob"
  token := "tok"
  totalAmount := 10
  filledAmount := 0
  minFillAmount := 1
  hashlock := "hl"
  timelock := 100
  allowPartialWithdraw := true
  completed := false
  refunded := false
  fills := [] }

def c6SResult := StellarPartialFill.fillHtlc idHash [("carol", 100)] 0
  "contract" [(1, c6SHtlc)] 1 "carol" 3 "hl"

def c6SNewHtlcs : List (Nat × StellarPartialFill.PartialHTLC) :=
  match c6SResult with
  | .ok (hs, _) => hs
  | .error _ => [(1, c6SHtlc)]

def c6SNewHtlc : StellarPartialFill.PartialHTLC :=
  (mapGet c6SNewHtlcs 1).getD c6SHtlc

theorem c6StateInv : FusionPlus.accountingInv c6State := by
  intro k h hk
  simp only [c6State, mapGet] at hk
  split at hk
  · rename_i heq
    cases hk
    subst heq
    decide
  · cases hk

/-- Witness for C6: a concrete fill of 3 on a 10-token order keeps
`filled + remaining = total` on NEAR (`0 + 10 = 10` becomes
`3 + 7 = 10`), and preserves `sum of fills = filled ≤ total` on
Stellar. -/
theorem fill_accounting_invariant_witness :
    FusionPlus.createPartialFill c6State "carol" 3 0 "htlc_1" 3 =
      .ok (c6NewState, "fill_1") ∧
    FusionPlus.accountingInv c6State ∧
    mapGet c6NewState.htlcs "htlc_1" = some c6NewHtlc ∧
    (FusionPlus.activeFillSum (FusionPlus.fillsOf c6NewState "htlc_1") +
       c6NewHtlc.remainingAmount = c6NewHtlc.totalAmount) ∧
    StellarPartialFill.fillHtlc idHash [("carol", 100)] 0 "contract"
      [(1, c6SHtlc)] 1 "carol" 3 "hl" = .ok (c6SNewHtlcs, ⟨"contract",
      "carol", 3⟩) ∧
    (StellarPartialFill.fillSum c6SNewHtlc.fills =
       c6SNewHtlc.filledAmount ∧
     c6SNewHtlc.filledAmount ≤ c6SNewHtlc.totalAmount) :=
  ⟨rfl, c6StateInv, rfl,
   (fill_accounting_invariant.2.1 c6State "carol" 3 0 "htlc_1" 3
     c6NewState "fill_1" (by rfl) c6StateInv) "htlc_1" c6NewHtlc
     (by rfl),
   rfl,
   (fill_accounting_invariant.2.2.2.2 idHash [("carol", 100)] 0
     "contract" [(1, c6SHtlc)] 1 "carol" 3 "hl" c6SNewHtlcs
     ⟨"contract", "carol", 3⟩ c6SHtlc (by rfl) (by rfl) (by rfl))
     c6SNewHtlc (by rfl)⟩
